import Mathlib

/-!
Verification of the drift GPX-processing core: a shallow embedding of the
processing manifest (`packages/cli/src/manifest`), the sync orchestrator
(`packages/cli/src/commands/tag.ts`), the segment merger
(`packages/cli/src/transforms/segments.ts`), the 3D Douglas-Peucker
simplifier (`transforms/simplify3d.ts`), the metric calculator
(`parsers/metadata.ts`) and the GPX parser (`parsers/gpx.ts`),
with theorems settling the spec's claims about them.

Conventions: JS numbers are embedded as `ℝ` (exact arithmetic), JS `Date`
values as epoch milliseconds (`Int`), `Record<string, T>` objects as
association lists with unique keys, thrown exceptions as `Except`/`Option`,
and the ambient clock (`new Date()`) as an explicit `now` argument.
-/

namespace Drift

/-- Processing status for a file (`FileStatus` in `manifest/index.ts`). -/
inductive FileStatus where
  | pending
  | processing
  | processed
  | error
deriving DecidableEq

/-- Entry for a tracked file in the manifest (`FileEntry` in `manifest/index.ts`).
`Date` fields are epoch milliseconds. -/
structure FileEntry where
  checksum : String
  status : FileStatus
  addedAt : Int
  processedAt : Option Int
  error : Option String
  outputPath : Option String
deriving DecidableEq

/-- Lookup in a JS object modelled as an association list (`manifest.files[filePath]`). -/
def recordGet (files : List (String × FileEntry)) (path : String) : Option FileEntry :=
  (files.find? (fun kv => kv.1 = path)).map (fun kv => kv.2)

/-- JS object update `{ ...files, [path]: entry }`: replace the binding in place
when the key exists, otherwise append it. -/
def recordSet (files : List (String × FileEntry)) (path : String) (entry : FileEntry) :
    List (String × FileEntry) :=
  if files.any (fun kv => kv.1 = path) then
    files.map (fun kv => if kv.1 = path then (path, entry) else kv)
  else
    files ++ [(path, entry)]

/-- Processing manifest (`ProcessingManifest` in `manifest/index.ts`). -/
structure ProcessingManifest where
  version : Nat
  pipelineVersion : String
  createdAt : Int
  updatedAt : Int
  files : List (String × FileEntry)
deriving DecidableEq

/-- `createManifest` from `manifest/index.ts`; `now` stands for `new Date()`. -/
def createManifest (pipelineVersion : Option String) (now : Int) : ProcessingManifest :=
  { version := 1
    pipelineVersion := pipelineVersion.getD "1.0.0"
    createdAt := now
    updatedAt := now
    files := [] }

/-- `addFileEntry` from `manifest/index.ts`: insert as `pending` for an unknown
path; keep the entry untouched when the checksum is unchanged; reset to
`pending` with the stored checksum updated and `addedAt` preserved when the
checksum changed. -/
def addFileEntry (manifest : ProcessingManifest) (filePath checksum : String) (now : Int) :
    ProcessingManifest :=
  let existing := recordGet manifest.files filePath
  let entry : FileEntry :=
    match existing with
    | some e =>
      if e.checksum = checksum then
        e
      else
        { checksum := checksum, status := .pending, addedAt := e.addedAt,
          processedAt := none, error := none, outputPath := none }
    | none =>
      { checksum := checksum, status := .pending, addedAt := now,
        processedAt := none, error := none, outputPath := none }
  { manifest with updatedAt := now, files := recordSet manifest.files filePath entry }

/-- `updateFileStatus` from `manifest/index.ts`. `none` models the
`File not found in manifest` throw. An `error` message is stored only when the
new status is `error` and the message is truthy (non-empty); any other status
clears the `error` field. `processedAt` is stamped on transition to `processed`. -/
def updateFileStatus (manifest : ProcessingManifest) (filePath : String)
    (status : FileStatus) (error : Option String) (now : Int) : Option ProcessingManifest :=
  match recordGet manifest.files filePath with
  | none => none
  | some existing =>
    let entry : FileEntry :=
      { checksum := existing.checksum
        status := status
        addedAt := existing.addedAt
        processedAt := if status = .processed then some now else existing.processedAt
        error :=
          if status = .error then
            match error with
            | some msg => if msg = "" then existing.error else some msg
            | none => existing.error
          else
            none
        outputPath := existing.outputPath }
    some { manifest with updatedAt := now, files := recordSet manifest.files filePath entry }

/-- `getFileEntry` from `manifest/index.ts`. -/
def getFileEntry (manifest : ProcessingManifest) (filePath : String) : Option FileEntry :=
  recordGet manifest.files filePath

/-- `needsProcessing` from `manifest/index.ts`: true when the path is unknown,
the checksum changed, or the status is not `processed`. -/
def needsProcessing (manifest : ProcessingManifest) (filePath checksum : String) : Bool :=
  match recordGet manifest.files filePath with
  | none => true
  | some entry =>
    if entry.checksum ≠ checksum then true
    else if entry.status ≠ .processed then true
    else false

/-- Result of processing a single file (`ProcessResult` in `commands/tag.ts`). -/
structure ProcessResult where
  success : Bool
  outputPath : Option String
  error : Option String
deriving DecidableEq

/-- A file that had an error (`ErrorFileInfo` in `commands/tag.ts`). -/
structure ErrorFileInfo where
  path : String
  error : String
deriving DecidableEq

/-- Result of a sync operation (`SyncResult` in `commands/tag.ts`). -/
structure SyncResult where
  total : Nat
  processed : Nat
  skipped : Nat
  errors : Nat
  newFiles : Nat
  modified : Nat
  errorFiles : List ErrorFileInfo
  manifest : ProcessingManifest
deriving DecidableEq

/-- One iteration of the `for (const filePath of files)` loop in `syncFiles`
(`commands/tag.ts`). The directory scan and checksum computation are modelled
by the `(path, checksum)` input pair; the per-file processor is a function
returning `Except` (`.error` models a thrown exception, treated by the `catch`
block exactly like a reported failure). An `Except.error` of the whole step
models an uncaught `updateFileStatus` throw escaping `syncFiles`. -/
def syncStep (processor : String → Except String ProcessResult) (now : Int)
    (acc : SyncResult) (file : String × String) : Except String SyncResult :=
  let filePath := file.1
  let checksum := file.2
  let manifest := acc.manifest
  let existingEntry := getFileEntry manifest filePath
  let isNew := existingEntry.isNone
  let isModified :=
    match existingEntry with
    | some e => e.checksum != checksum
    | none => false
  if ¬ needsProcessing manifest filePath checksum then
    .ok { acc with skipped := acc.skipped + 1 }
  else
    let m1 := addFileEntry manifest filePath checksum now
    match updateFileStatus m1 filePath .processing none now with
    | none => .error ("File not found in manifest: " ++ filePath)
    | some m2 =>
      let tryResult : Except String SyncResult :=
        match processor filePath with
        | .error err => .error err
        | .ok processResult =>
          if processResult.success then
            match updateFileStatus m2 filePath .processed none now with
            | none => .error ("File not found in manifest: " ++ filePath)
            | some m3 =>
              .ok { acc with
                manifest := m3
                processed := acc.processed + 1
                newFiles := if isNew then acc.newFiles + 1 else acc.newFiles
                modified :=
                  if isNew then acc.modified
                  else if isModified then acc.modified + 1 else acc.modified }
          else
            let err := processResult.error.getD "Unknown error"
            match updateFileStatus m2 filePath .error (some err) now with
            | none => .error ("File not found in manifest: " ++ filePath)
            | some m3 =>
              .ok { acc with
                manifest := m3
                errors := acc.errors + 1
                errorFiles := acc.errorFiles ++ [{ path := filePath, error := err }] }
      match tryResult with
      | .ok next => .ok next
      | .error err =>
        match updateFileStatus m2 filePath .error (some err) now with
        | none => .error ("File not found in manifest: " ++ filePath)
        | some m3 =>
          .ok { acc with
            manifest := m3
            errors := acc.errors + 1
            errorFiles := acc.errorFiles ++ [{ path := filePath, error := err }] }

/-- The file loop of `syncFiles`, threading the accumulated result. -/
def syncFilesLoop (processor : String → Except String ProcessResult) (now : Int) :
    SyncResult → List (String × String) → Except String SyncResult
  | acc, [] => .ok acc
  | acc, f :: rest =>
    match syncStep processor now acc f with
    | .error e => .error e
    | .ok next => syncFilesLoop processor now next rest

/-- `syncFiles` from `commands/tag.ts`: scan results arrive as `(path, checksum)`
pairs (`scanDirectory` + `calculateChecksum` are filesystem collaborators), and
`new Date()` is the caller-supplied `now`. -/
def syncFiles (manifest : ProcessingManifest) (files : List (String × String))
    (processor : String → Except String ProcessResult) (now : Int) :
    Except String SyncResult :=
  syncFilesLoop processor now
    { total := files.length, processed := 0, skipped := 0, errors := 0,
      newFiles := 0, modified := 0, errorFiles := [], manifest := manifest }
    files

open scoped Classical

/-- Device extension data (`TrackPointExtensions` in `types.ts`); JS numbers are ℝ. -/
structure TrackPointExtensions where
  heartRate : Option ℝ
  power : Option ℝ
  cadence : Option ℝ
  temperature : Option ℝ

/-- A single track point (`TrackPoint` in `types.ts`): degrees, meters, and an
optional epoch-millisecond timestamp (JS `Date`). -/
structure TrackPoint where
  lon : ℝ
  lat : ℝ
  ele : ℝ
  time : Option Int
  extensions : Option TrackPointExtensions

instance : Inhabited TrackPoint :=
  ⟨{ lon := 0, lat := 0, ele := 0, time := none, extensions := none }⟩

/-- A continuous segment of track points (`TrackSegment` in `types.ts`). -/
structure TrackSegment where
  points : List TrackPoint

/-- `toRadians` from `utils/geo.ts`. -/
noncomputable def toRadians (degrees : ℝ) : ℝ :=
  degrees * (Real.pi / 180)

/-- JS `Math.atan2`. -/
noncomputable def atan2 (y x : ℝ) : ℝ :=
  if 0 < x then Real.arctan (y / x)
  else if x < 0 then
    (if 0 ≤ y then Real.arctan (y / x) + Real.pi else Real.arctan (y / x) - Real.pi)
  else
    (if 0 < y then Real.pi / 2 else if y < 0 then -(Real.pi / 2) else 0)

/-- `haversineDistance` from `utils/geo.ts` (kilometers). -/
noncomputable def haversineDistance (lat1 lon1 lat2 lon2 : ℝ) : ℝ :=
  let dLat := toRadians (lat2 - lat1)
  let dLon := toRadians (lon2 - lon1)
  let a := Real.sin (dLat / 2) * Real.sin (dLat / 2) +
    Real.cos (toRadians lat1) * Real.cos (toRadians lat2) *
      (Real.sin (dLon / 2) * Real.sin (dLon / 2))
  let c := 2 * atan2 (Real.sqrt a) (Real.sqrt (1 - a))
  6371 * c

/-- Gap analysis between two segments (`GapAnalysis` in `transforms/segments.ts`).
The JS boolean `shouldMerge` is embedded as a `Prop`. -/
structure GapAnalysis where
  timeGapSeconds : Int
  distanceGapKm : ℝ
  shouldMerge : Prop

/-- Options for segment processing (`SegmentProcessingOptions`). -/
structure SegmentProcessingOptions where
  maxTimeGapSeconds : Option ℝ
  maxDistanceGapKm : Option ℝ

/-- Merge statistics (`MergeInfo`). -/
structure MergeInfo where
  originalCount : Nat
  resultCount : Nat
  mergedCount : Nat

/-- Result of `processSegments` (`SegmentProcessingResult`). -/
structure SegmentProcessingResult where
  segments : List TrackSegment
  gaps : List GapAnalysis
  mergeInfo : Option MergeInfo

/-- `analyzeGap` from `transforms/segments.ts`: time gap in whole seconds
(floored, clamped at 0, 0 when a timestamp is missing), great-circle distance
gap, and the merge decision
`(timeGap == 0 ∨ timeGap ≤ maxTimeGap) ∧ distanceGap ≤ maxDistanceGap`
with defaults 300 s and 0.5 km. Empty segments always merge. -/
noncomputable def analyzeGap (seg1 seg2 : TrackSegment)
    (options : Option SegmentProcessingOptions) : GapAnalysis :=
  let maxTimeGap : ℝ := (options.bind (fun o => o.maxTimeGapSeconds)).getD 300
  let maxDistanceGap : ℝ := (options.bind (fun o => o.maxDistanceGapKm)).getD 0.5
  if seg1.points.length = 0 ∨ seg2.points.length = 0 then
    { timeGapSeconds := 0, distanceGapKm := 0, shouldMerge := True }
  else
    let lastPoint1 := seg1.points.getD (seg1.points.length - 1) default
    let firstPoint2 := seg2.points.getD 0 default
    let timeGapSeconds : Int :=
      match lastPoint1.time, firstPoint2.time with
      | some t1, some t2 => max 0 ((t2 - t1).fdiv 1000)
      | _, _ => 0
    let distanceGapKm :=
      haversineDistance lastPoint1.lat lastPoint1.lon firstPoint2.lat firstPoint2.lon
    let timeOk := timeGapSeconds = 0 ∨ (timeGapSeconds : ℝ) ≤ maxTimeGap
    let distanceOk := distanceGapKm ≤ maxDistanceGap
    { timeGapSeconds := timeGapSeconds, distanceGapKm := distanceGapKm,
      shouldMerge := timeOk ∧ distanceOk }

/-- Body of the merge loop in `processSegments`: state is
(result segments so far, gap list so far, current segment being grown). -/
noncomputable def processSegmentsStep (options : Option SegmentProcessingOptions)
    (state : List TrackSegment × List GapAnalysis × TrackSegment)
    (nextSegment : TrackSegment) :
    List TrackSegment × List GapAnalysis × TrackSegment :=
  let gap := analyzeGap state.2.2 nextSegment options
  if gap.shouldMerge then
    (state.1, state.2.1 ++ [gap], { points := state.2.2.points ++ nextSegment.points })
  else
    (state.1 ++ [state.2.2], state.2.1 ++ [gap], { points := nextSegment.points })

/-- `processSegments` from `transforms/segments.ts`. -/
noncomputable def processSegments (segments : List TrackSegment)
    (options : Option SegmentProcessingOptions) : SegmentProcessingResult :=
  match segments with
  | [] => { segments := [], gaps := [], mergeInfo := none }
  | [s] => { segments := [s], gaps := [], mergeInfo := none }
  | s0 :: s1 :: rest =>
    let final := (s1 :: rest).foldl (processSegmentsStep options)
      ([], [], { points := s0.points })
    let resultSegments := final.1 ++ [final.2.2]
    { segments := resultSegments
      gaps := final.2.1
      mergeInfo := some
        { originalCount := (s0 :: s1 :: rest).length
          resultCount := resultSegments.length
          mergedCount := (s0 :: s1 :: rest).length - resultSegments.length } }

/-- Elevation statistics (`ElevationStats` in `types.ts`); the source rounds
each field with `Math.round`. -/
structure ElevationStats where
  gain : ℝ
  loss : ℝ
  max : ℝ
  min : ℝ

/-- JS `Math.round`: round half toward positive infinity. -/
noncomputable def jsRound (x : ℝ) : Int :=
  ⌊x + 1 / 2⌋

/-- JS `Math.max(...list)` over a non-empty spread; 0 for `[]` (unreachable in
`calculateElevationStats`, which returns early on empty input). -/
def listMax : List ℝ → ℝ
  | [] => 0
  | e :: es => es.foldl max e

/-- JS `Math.min(...list)` over a non-empty spread; 0 for `[]` (unreachable). -/
def listMin : List ℝ → ℝ
  | [] => 0
  | e :: es => es.foldl min e

/-- Body of the noise-filtering loop in `calculateElevationStats`: state is
(gain, loss, last significant elevation). Changes of at least `threshold`
accumulate and reset the reference; smaller changes are ignored. -/
noncomputable def elevStep (threshold : ℝ) (acc : ℝ × ℝ × ℝ) (ele : ℝ) : ℝ × ℝ × ℝ :=
  let diff := ele - acc.2.2
  if |diff| ≥ threshold then
    if 0 < diff then (acc.1 + diff, acc.2.1, ele)
    else (acc.1, acc.2.1 + |diff|, ele)
  else
    (acc.1, acc.2.1, acc.2.2)

/-- `calculateElevationStats` from `parsers/metadata.ts`. -/
noncomputable def calculateElevationStats (points : List TrackPoint) (threshold : ℝ) :
    ElevationStats :=
  match points.map TrackPoint.ele with
  | [] => { gain := 0, loss := 0, max := 0, min := 0 }
  | e0 :: erest =>
    let maxE := listMax (e0 :: erest)
    let minE := listMin (e0 :: erest)
    if maxE = 0 ∧ minE = 0 then
      { gain := 0, loss := 0, max := 0, min := 0 }
    else
      let final := erest.foldl (elevStep threshold) (0, 0, e0)
      { gain := ((jsRound final.1 : Int) : ℝ)
        loss := ((jsRound final.2.1 : Int) : ℝ)
        max := ((jsRound maxE : Int) : ℝ)
        min := ((jsRound minE : Int) : ℝ) }

/-- One step of the claim-side elevation walk: state is (reference, gain, loss);
a change of at least the threshold accumulates and resets the reference. -/
noncomputable def specElevStep (threshold : ℝ) (st : ℝ × ℝ × ℝ) (e : ℝ) : ℝ × ℝ × ℝ :=
  if threshold ≤ |e - st.1| then
    (e, (if 0 < e - st.1 then st.2.1 + (e - st.1) else st.2.1),
      (if 0 < e - st.1 then st.2.2 else st.2.2 + |e - st.1|))
  else st

/-- The elevation walk as the claim words it (reference definition written from
the spec text, for comparison with `calculateElevationStats`): walk the
elevations keeping a last significant elevation; accumulate into gain or loss
only when the absolute change from that reference is at least the threshold,
then reset the reference. Returns (gain, loss) before rounding. -/
noncomputable def specElevWalk (elevations : List ℝ) (threshold : ℝ) : ℝ × ℝ :=
  match elevations with
  | [] => (0, 0)
  | e0 :: erest =>
    let final := erest.foldl (specElevStep threshold) (e0, 0, 0)
    (final.2.1, final.2.2)

/-- One step of the strict-threshold elevation walk (the claim's literal
"exceeds"): accumulate only when the change is strictly greater than the
threshold. -/
noncomputable def specElevStepStrict (threshold : ℝ) (st : ℝ × ℝ × ℝ) (e : ℝ) : ℝ × ℝ × ℝ :=
  if threshold < |e - st.1| then
    (e, (if 0 < e - st.1 then st.2.1 + (e - st.1) else st.2.1),
      (if 0 < e - st.1 then st.2.2 else st.2.2 + |e - st.1|))
  else st

/-- The strict-threshold elevation walk: like `specElevWalk` but accumulating
only when the change strictly exceeds the threshold. -/
noncomputable def specElevWalkStrict (elevations : List ℝ) (threshold : ℝ) : ℝ × ℝ :=
  match elevations with
  | [] => (0, 0)
  | e0 :: erest =>
    let final := erest.foldl (specElevStepStrict threshold) (e0, 0, 0)
    (final.2.1, final.2.2)

/-- Track point with a given elevation at the origin, for the C7 inputs. -/
def elevPt (e : ℝ) : TrackPoint :=
  { lon := 0, lat := 0, ele := e, time := none, extensions := none }

/-- The claim's scenario input: elevations [100, 101, 100, 110, 105]. -/
def elevScenario : List TrackPoint :=
  [elevPt 100, elevPt 101, elevPt 100, elevPt 110, elevPt 105]

/-- `METERS_PER_DEGREE_LAT` from `transforms/simplify3d.ts`. -/
def METERS_PER_DEGREE_LAT : ℝ := 111320

/-- `perpendicularDistance3D` from `transforms/simplify3d.ts`: 3D distance (in
approximate meters) from a point to a line segment, after projecting degrees to
meters with a `cos`-corrected longitude scale and weighting elevation. -/
noncomputable def perpendicularDistance3D (point lineStart lineEnd : TrackPoint)
    (elevationWeight : ℝ) : ℝ :=
  let avgLat := (lineStart.lat + lineEnd.lat) / 2
  let metersPerDegreeLon := METERS_PER_DEGREE_LAT * Real.cos (avgLat * Real.pi / 180)
  let x1 := lineStart.lon * metersPerDegreeLon
  let y1 := lineStart.lat * METERS_PER_DEGREE_LAT
  let z1 := lineStart.ele * elevationWeight
  let x2 := lineEnd.lon * metersPerDegreeLon
  let y2 := lineEnd.lat * METERS_PER_DEGREE_LAT
  let z2 := lineEnd.ele * elevationWeight
  let x0 := point.lon * metersPerDegreeLon
  let y0 := point.lat * METERS_PER_DEGREE_LAT
  let z0 := point.ele * elevationWeight
  let dx := x2 - x1
  let dy := y2 - y1
  let dz := z2 - z1
  let lineLengthSq := dx * dx + dy * dy + dz * dz
  if lineLengthSq = 0 then
    Real.sqrt ((x0 - x1) * (x0 - x1) + (y0 - y1) * (y0 - y1) + (z0 - z1) * (z0 - z1))
  else
    let t := max 0 (min 1 (((x0 - x1) * dx + (y0 - y1) * dy + (z0 - z1) * dz) / lineLengthSq))
    let closestX := x1 + t * dx
    let closestY := y1 + t * dy
    let closestZ := z1 + t * dz
    Real.sqrt ((x0 - closestX) * (x0 - closestX) + (y0 - closestY) * (y0 - closestY) +
      (z0 - closestZ) * (z0 - closestZ))

/-- The `for (let i = start + 1; i < end; i++)` scan in `douglasPeuckerIterative`
that finds the interior point of maximum perpendicular distance; state is
(maxDist, maxIndex), initialised to (0, start). -/
noncomputable def findMaxDistance (points : List TrackPoint) (elevationWeight : ℝ)
    (s e : Nat) : ℝ × Nat :=
  let startPoint := points.getD s default
  let endPoint := points.getD e default
  (List.range' (s + 1) (e - s - 1)).foldl
    (fun acc i =>
      let dist :=
        perpendicularDistance3D (points.getD i default) startPoint endPoint elevationWeight
      if dist > acc.1 then (dist, i) else acc)
    (0, s)

/-- The explicit-stack `while (stack.length > 0)` loop of
`douglasPeuckerIterative`. The stack is a list with its head as the top; a
range splits at the max-distance point when that distance exceeds the
tolerance. The extra `fuel` argument bounds the iteration count so the
function is total: for tolerance ≥ 0 the loop provably finishes within
`2 * n + 2` iterations (every split strictly shrinks the measure), matching
the source's unbounded loop; only for a negative tolerance, where the source
loop can re-push a range forever and diverge, does the fuel cut in. -/
noncomputable def dpLoop (points : List TrackPoint) (toleranceMeters elevationWeight : ℝ) :
    Nat → List (Nat × Nat) → List Bool → List Bool
  | 0, _, keep => keep
  | _ + 1, [], keep => keep
  | fuel + 1, (s, e) :: stack, keep =>
    if e - s ≤ 1 then dpLoop points toleranceMeters elevationWeight fuel stack keep
    else
      let md := findMaxDistance points elevationWeight s e
      if md.1 > toleranceMeters then
        dpLoop points toleranceMeters elevationWeight fuel
          ((md.2, e) :: (s, md.2) :: stack) (keep.set md.2 true)
      else
        dpLoop points toleranceMeters elevationWeight fuel stack keep

/-- The final `keep`-flag filter of `douglasPeuckerIterative`: collect the
points whose flag is set, in order. -/
def filterByKeep : List TrackPoint → List Bool → List TrackPoint
  | p :: ps, b :: bs => if b then p :: filterByKeep ps bs else filterByKeep ps bs
  | _, _ => []

/-- `douglasPeuckerIterative` from `transforms/simplify3d.ts`. -/
noncomputable def douglasPeuckerIterative (points : List TrackPoint)
    (toleranceMeters elevationWeight : ℝ) : List TrackPoint :=
  let n := points.length
  if n ≤ 2 then points
  else
    let keep0 := ((List.replicate n false).set 0 true).set (n - 1) true
    let keepF := dpLoop points toleranceMeters elevationWeight (2 * n + 2) [(0, n - 1)] keep0
    filterByKeep points keepF

/-- `simplify3D` from `transforms/simplify3d.ts`: 3D Douglas-Peucker with the
tolerance converted from degrees to approximate meters. -/
noncomputable def simplify3D (points : List TrackPoint) (tolerance elevationWeight : ℝ) :
    List TrackPoint :=
  if points.length ≤ 2 then points
  else douglasPeuckerIterative points (tolerance * METERS_PER_DEGREE_LAT) elevationWeight

/-- Termination measure for the explicit work stack of `dpLoop`: every
iteration of the source loop strictly decreases it when the tolerance is
nonnegative, so `stackPhi stack ≤ fuel` guarantees the fuel never runs out. -/
def stackPhi (stack : List (Nat × Nat)) : Nat :=
  (stack.map (fun se => 2 * (se.2 - se.1 - 1) + 1)).sum

/-- The origin point; three copies of it form the C4 counterexample input. -/
def originPt : TrackPoint :=
  { lon := 0, lat := 0, ele := 0, time := none, extensions := none }

/-- A point 1 m above the origin, used in the C4 witness input. -/
def elevOnePt : TrackPoint :=
  { lon := 0, lat := 0, ele := 1, time := none, extensions := none }

/-- First point of the C5 witness input. -/
def ptC5a : TrackPoint :=
  { lon := 1, lat := 2, ele := 3, time := some 0, extensions := none }

/-- Second point of the C5 witness input. -/
def ptC5b : TrackPoint :=
  { lon := 4, lat := 5, ele := 6, time := some 60000, extensions := none }

/-- The claim's time-gap formula (reference definition written from the spec
text, for comparison with `analyzeGap`): difference between the two timestamps
in floored whole seconds, 0 when either timestamp is missing, clamped at 0. -/
def specTimeGap (lastP firstP : TrackPoint) : Int :=
  match lastP.time, firstP.time with
  | some t1, some t2 => max 0 ((t2 - t1).fdiv 1000)
  | _, _ => 0

/-- One-point segment with a timestamp, used to instantiate the C6 theorem. -/
def ptC6a : TrackPoint :=
  { lon := 0, lat := 0, ele := 0, time := some 60000, extensions := none }

/-- One-point segment with a later timestamp, used to instantiate the C6 theorem. -/
def ptC6b : TrackPoint :=
  { lon := 0, lat := 0, ele := 0, time := some 120000, extensions := none }

def segC6a : TrackSegment := { points := [ptC6a] }

def segC6b : TrackSegment := { points := [ptC6b] }

def segC6empty : TrackSegment := { points := [] }

/-- fast-xml-parser yields a single object or an array for repeated elements. -/
inductive OneOrMany (α : Type) where
  | one : α → OneOrMany α
  | many : List α → OneOrMany α

/-- Raw `gpxtpx:TrackPointExtension` block as decoded from XML; values already
`Number()`-converted. -/
structure GPXTpExt where
  hr : Option ℝ
  cad : Option ℝ
  atemp : Option ℝ

/-- Raw `<extensions>` block of a track point. -/
structure GPXExtensions where
  tpExt : Option GPXTpExt
  power : Option ℝ

/-- Raw `<trkpt>` as decoded from XML; only its extension block is read by
`parseGPX` (coordinates come from the togeojson features). -/
structure GPXTrackPoint where
  ext : Option GPXExtensions

/-- Raw `<trkseg>`. -/
structure GPXTrackSegment where
  trkpt : Option (OneOrMany GPXTrackPoint)

/-- Raw `<trk>`. -/
structure GPXTrack where
  name : Option String
  type : Option String
  trkseg : Option (OneOrMany GPXTrackSegment)

/-- Raw `<gpx>` root. -/
structure GPXRoot where
  trk : Option (OneOrMany GPXTrack)

/-- The XML parser's output document. -/
structure GPXDocument where
  gpx : Option GPXRoot

/-- `properties.coordinateProperties.times` of a togeojson feature: absent, a
flat string array (LineString) or a nested one (MultiLineString). -/
inductive GeoTimes where
  | noTimes : GeoTimes
  | flat : List String → GeoTimes
  | nested : List (List String) → GeoTimes

/-- Geometry of a togeojson feature. -/
inductive GeoGeometry where
  | lineString : List (List ℝ) → GeoGeometry
  | multiLineString : List (List (List ℝ)) → GeoGeometry
  | otherGeom : GeoGeometry

/-- A togeojson feature: the external `gpx(doc)` call is modelled by passing
its output as input. -/
structure GeoFeature where
  geometry : Option GeoGeometry
  times : GeoTimes

/-- A parsed GPX track (`ParsedTrack` in `types.ts`). -/
structure ParsedTrack where
  name : String
  type : Option String
  segments : List TrackSegment

/-- Result of parsing a GPX file (`ParseResult` in `types.ts`). -/
structure ParseResult where
  track : ParsedTrack
  warnings : List String

/-- The per-point `TrackPointExtensions` construction inside
`buildExtensionMap`: `none` when the point has no extension block or every
field is absent (`Object.keys(ext).length === 0`). -/
def extFromGPXPoint (pt : GPXTrackPoint) : Option TrackPointExtensions :=
  match pt.ext with
  | none => none
  | some exts =>
    let ext : TrackPointExtensions :=
      { heartRate := exts.tpExt.bind (fun t => t.hr)
        power := exts.power
        cadence := exts.tpExt.bind (fun t => t.cad)
        temperature := exts.tpExt.bind (fun t => t.atemp) }
    if ext.heartRate.isSome ∨ ext.power.isSome ∨ ext.cadence.isSome ∨ ext.temperature.isSome
    then some ext
    else none

/-- `buildExtensionMap` from `parsers/gpx.ts`: a map from global point index to
extension data, built by walking the raw track's segments and points. A missing
`trkseg` behaves like JS `[track.trkseg]` = `[undefined]`: the entry is skipped. -/
def buildExtensionMap (track : GPXTrack) : List (Nat × TrackPointExtensions) :=
  let segs : List (Option GPXTrackSegment) :=
    match track.trkseg with
    | some (.one s) => [some s]
    | some (.many l) => l.map some
    | none => [none]
  (segs.foldl
    (fun (acc : List (Nat × TrackPointExtensions) × Nat) seg =>
      match seg with
      | none => acc
      | some s =>
        match s.trkpt with
        | none => acc
        | some pts =>
          (match pts with
            | .one p => [p]
            | .many l => l).foldl
            (fun acc2 pt =>
              match extFromGPXPoint pt with
              | some ext => (acc2.1 ++ [(acc2.2, ext)], acc2.2 + 1)
              | none => (acc2.1, acc2.2 + 1))
            acc)
    ([], 0)).1

/-- `extensionMap.get(index)`. -/
def extMapGet (m : List (Nat × TrackPointExtensions)) (i : Nat) :
    Option TrackPointExtensions :=
  (m.find? (fun kv => kv.1 = i)).map (fun kv => kv.2)

/-- `processLineString` from `parsers/gpx.ts`: each coordinate becomes a point
with missing components defaulting to 0; a point gets a time only for a truthy
(non-empty) time string, parsed by the external `new Date(...)` modelled as
`parseDate`. -/
def processLineString (coordinates : List (List ℝ)) (times : Option (List String))
    (extMap : List (Nat × TrackPointExtensions)) (startIndex : Nat)
    (parseDate : String → Int) : TrackSegment :=
  { points := coordinates.enum.map (fun ic =>
      { lon := ic.2.getD 0 0
        lat := ic.2.getD 1 0
        ele := ic.2.getD 2 0
        time :=
          match times with
          | none => none
          | some ts =>
            match ts.get? ic.1 with
            | none => none
            | some tv => if tv = "" then none else some (parseDate tv)
        extensions := extMapGet extMap (startIndex + ic.1) }) }

/-- State of the feature loop in `parseGPX`: segments built so far, the
`hasElevation` / `hasTimestamps` flags (the JS flag loops are embedded as the
equivalent existentials), and `totalPoints`. -/
structure FeatureState where
  segments : List TrackSegment
  hasEle : Prop
  hasTime : Prop
  total : Nat

/-- One iteration of the inner sub-path loop of the MultiLineString branch in
`parseGPX`: the source indexes its nested `times` by the global
`segments.length` and threads `segmentOffset`, which always equals the running
total. -/
noncomputable def parseMLSStep (extMap : List (Nat × TrackPointExtensions))
    (parseDate : String → Int) (times : Option (List (List String)))
    (st2 : FeatureState) (coords : List (List ℝ)) : FeatureState :=
  let segment := processLineString coords
    (times.bind (fun ts => ts.get? st2.segments.length)) extMap st2.total parseDate
  if 0 < segment.points.length then
    { segments := st2.segments ++ [segment]
      hasEle := st2.hasEle ∨ ∃ p ∈ segment.points, p.ele ≠ 0
      hasTime := st2.hasTime ∨ ∃ p ∈ segment.points, p.time.isSome
      total := st2.total + segment.points.length }
  else st2

/-- One iteration of the `for (const feature of geoJson.features)` loop in
`parseGPX`. A LineString contributes one segment, a MultiLineString one per
sub-path; empty segments are dropped without advancing the index. -/
noncomputable def parseFeatureStep (extMap : List (Nat × TrackPointExtensions))
    (parseDate : String → Int) (st : FeatureState) (feature : GeoFeature) :
    FeatureState :=
  match feature.geometry with
  | some (.lineString coords) =>
    let times := match feature.times with | .flat l => some l | _ => none
    let segment := processLineString coords times extMap st.total parseDate
    if 0 < segment.points.length then
      { segments := st.segments ++ [segment]
        hasEle := st.hasEle ∨ ∃ p ∈ segment.points, p.ele ≠ 0
        hasTime := st.hasTime ∨ ∃ p ∈ segment.points, p.time.isSome
        total := st.total + segment.points.length }
    else st
  | some (.multiLineString coordsList) =>
    let times := match feature.times with | .nested l => some l | _ => none
    coordsList.foldl (parseMLSStep extMap parseDate times) st
  | _ => st

/-- The `trk` value normalised to a list, as `Array.isArray(trk) ? trk : [trk]`. -/
def gpxTracks : OneOrMany GPXTrack → List GPXTrack
  | .one t => [t]
  | .many l => l

/-- `parseGPX` from `parsers/gpx.ts`. The external collaborators are modelled
as inputs: `xmlResult` is the fast-xml-parser output (`none` = it threw),
`domParseError` says whether the DOM parse left a `parsererror` node,
`features` is the togeojson output, and `parseDate` is `new Date(...)`.
Thrown errors are `Except.error` with the source's messages. -/
noncomputable def parseGPX (xmlResult : Option GPXDocument) (domParseError : Bool)
    (features : List GeoFeature) (parseDate : String → Int) :
    Except String ParseResult :=
  match xmlResult with
  | none => .error "Failed to parse GPX: Invalid XML"
  | some gpxDoc =>
    match gpxDoc.gpx.bind (fun r => r.trk) with
    | none => .error "Failed to parse GPX: No track found"
    | some trk =>
      if domParseError then .error "Failed to parse GPX: Invalid XML"
      else if features.length = 0 ∨ (features.head?.bind (fun f => f.geometry)).isNone then
        .error "Failed to parse GPX: No track data found"
      else
        match (gpxTracks trk).head? with
        | none => .error "Failed to parse GPX: No track found"
        | some firstTrack =>
          let trackName := firstTrack.name.getD "Unnamed Track"
          let extensionMap := buildExtensionMap firstTrack
          let st := features.foldl (parseFeatureStep extensionMap parseDate)
            { segments := [], hasEle := False, hasTime := False, total := 0 }
          if st.total = 0 then .error "Failed to parse GPX: no track points found"
          else
            .ok
              { track :=
                  { name := trackName, type := firstTrack.type, segments := st.segments }
                warnings :=
                  (if ¬ st.hasEle then ["Missing elevation data in track points"] else []) ++
                  (if ¬ st.hasTime then ["Missing timestamp data in track points"] else []) }

/-- The number of points across all segments, as the claim words it: the
coordinate counts of every LineString and every MultiLineString sub-path. -/
def specTotalPoints (features : List GeoFeature) : Nat :=
  (features.map (fun f =>
    match f.geometry with
    | some (.lineString coords) => coords.length
    | some (.multiLineString cs) => (cs.map List.length).sum
    | _ => 0)).sum

/-- Concrete XML document for the C9 witness. -/
def trackC9 : GPXTrack := { name := some "Ride", type := none, trkseg := none }

def docC9 : GPXDocument := { gpx := some { trk := some (.one trackC9) } }

/-- Concrete feature list for the C9 witness: one two-point LineString. -/
def featuresC9 : List GeoFeature :=
  [{ geometry := some (.lineString [[0, 0], [1, 1]]), times := .noTimes }]

/-- Starting manifest for the C8 counterexample: one entry whose checksum matches
the file on disk but whose status is `error` (a retry candidate). -/
def manifestC8 : ProcessingManifest :=
  { version := 1, pipelineVersion := "1.0.0", createdAt := 0, updatedAt := 0,
    files := [("/r.gpx",
      { checksum := "c", status := .error, addedAt := 0,
        processedAt := none, error := some "old failure", outputPath := none })] }

/-- Processor that always succeeds, used by the C8 counterexample and witness. -/
def procC8 : String → Except String ProcessResult :=
  fun _ => .ok { success := true, outputPath := none, error := none }

/-- The sync result of retrying `/r.gpx` from `manifestC8`: processed but tallied
neither as new nor as modified. -/
def resultC8 : SyncResult :=
  { total := 1, processed := 1, skipped := 0, errors := 0, newFiles := 0, modified := 0,
    errorFiles := [],
    manifest :=
      { version := 1, pipelineVersion := "1.0.0", createdAt := 0, updatedAt := 0,
        files := [("/r.gpx",
          { checksum := "c", status := .processed, addedAt := 0,
            processedAt := some 0, error := none, outputPath := none })] } }

/-- The sync result of processing the brand-new `/n.gpx` from an empty manifest. -/
def resultC8w : SyncResult :=
  { total := 1, processed := 1, skipped := 0, errors := 0, newFiles := 1, modified := 0,
    errorFiles := [],
    manifest :=
      { version := 1, pipelineVersion := "1.0.0", createdAt := 0, updatedAt := 0,
        files := [("/n.gpx",
          { checksum := "k", status := .processed, addedAt := 0,
            processedAt := some 0, error := none, outputPath := none })] } }

/-- Processor that always succeeds, used by the C3 witness. -/
def procC3w : String → Except String ProcessResult :=
  fun _ => .ok { success := true, outputPath := none, error := none }

/-- First-run result for the C3 witness: the single new file is processed. -/
def resultC3run1 : SyncResult :=
  { total := 1, processed := 1, skipped := 0, errors := 0, newFiles := 1, modified := 0,
    errorFiles := [],
    manifest :=
      { version := 1, pipelineVersion := "1.0.0", createdAt := 0, updatedAt := 0,
        files := [("/w.gpx",
          { checksum := "k", status := .processed, addedAt := 0,
            processedAt := some 0, error := none, outputPath := none })] } }

/-- Second-run result for the C3 witness: everything is skipped. -/
def resultC3run2 : SyncResult :=
  { total := 1, processed := 0, skipped := 1, errors := 0, newFiles := 0, modified := 0,
    errorFiles := [], manifest := resultC3run1.manifest }

/-- Processor that always reports failure, used by the C3 counterexample. -/
def procC3x : String → Except String ProcessResult :=
  fun _ => .ok { success := false, outputPath := none, error := some "boom" }

/-- Result of either run of the C3 counterexample: the file fails, is marked
`error`, and is retried (not skipped) on the next run. -/
def resultC3x : SyncResult :=
  { total := 1, processed := 0, skipped := 0, errors := 1, newFiles := 0, modified := 0,
    errorFiles := [{ path := "/f.gpx", error := "boom" }],
    manifest :=
      { version := 1, pipelineVersion := "1.0.0", createdAt := 0, updatedAt := 0,
        files := [("/f.gpx",
          { checksum := "c1", status := .error, addedAt := 0,
            processedAt := none, error := some "boom", outputPath := none })] } }

end Drift

namespace Drift

theorem recordGet_cons_of_eq (kv : String × FileEntry) (rest : List (String × FileEntry))
    (q : String) (h : kv.1 = q) : recordGet (kv :: rest) q = some kv.2 := by
  unfold recordGet
  rw [List.find?_cons_of_pos _ (by simpa using h)]
  rfl

theorem recordGet_cons_of_ne (kv : String × FileEntry) (rest : List (String × FileEntry))
    (q : String) (h : ¬ kv.1 = q) : recordGet (kv :: rest) q = recordGet rest q := by
  unfold recordGet
  rw [List.find?_cons_of_neg _ (by simpa using h)]

theorem recordGet_map_replace (files : List (String × FileEntry)) (p : String)
    (e : FileEntry) :
    recordGet (files.map (fun kv => if kv.1 = p then (p, e) else kv)) p =
      (recordGet files p).map (fun _ => e) := by
  induction files with
  | nil => rfl
  | cons kv rest ih =>
    by_cases hk : kv.1 = p
    · rw [List.map_cons, if_pos hk, recordGet_cons_of_eq _ _ _ rfl,
        recordGet_cons_of_eq _ _ _ hk]
      rfl
    · rw [List.map_cons, if_neg hk, recordGet_cons_of_ne _ _ _ hk,
        recordGet_cons_of_ne _ _ _ hk]
      exact ih

theorem recordGet_map_replace_ne (files : List (String × FileEntry)) (p q : String)
    (e : FileEntry) (hqp : q ≠ p) :
    recordGet (files.map (fun kv => if kv.1 = p then (p, e) else kv)) q =
      recordGet files q := by
  induction files with
  | nil => rfl
  | cons kv rest ih =>
    by_cases hk : kv.1 = p
    · have h1 : ((p, e) : String × FileEntry).1 ≠ q := fun hc => hqp hc.symm
      have h2 : kv.1 ≠ q := by rw [hk]; exact fun hc => hqp hc.symm
      rw [List.map_cons, if_pos hk, recordGet_cons_of_ne _ _ _ h1,
        recordGet_cons_of_ne _ _ _ h2]
      exact ih
    · by_cases hq : kv.1 = q
      · rw [List.map_cons, if_neg hk, recordGet_cons_of_eq _ _ _ hq,
          recordGet_cons_of_eq _ _ _ hq]
      · rw [List.map_cons, if_neg hk, recordGet_cons_of_ne _ _ _ hq,
          recordGet_cons_of_ne _ _ _ hq]
        exact ih

theorem recordGet_append_single_self (files : List (String × FileEntry)) (p : String)
    (e : FileEntry) (h : files.any (fun kv => kv.1 = p) = false) :
    recordGet (files ++ [(p, e)]) p = some e := by
  induction files with
  | nil => exact recordGet_cons_of_eq _ _ _ rfl
  | cons kv rest ih =>
    rw [List.any_cons, Bool.or_eq_false_iff] at h
    have hk : ¬ kv.1 = p := by simpa using h.1
    rw [List.cons_append, recordGet_cons_of_ne _ _ _ hk]
    exact ih h.2

theorem recordGet_append_single_ne (files : List (String × FileEntry)) (p q : String)
    (e : FileEntry) (hqp : q ≠ p) :
    recordGet (files ++ [(p, e)]) q = recordGet files q := by
  induction files with
  | nil =>
    have h1 : ((p, e) : String × FileEntry).1 ≠ q := fun hc => hqp hc.symm
    rw [List.nil_append, recordGet_cons_of_ne _ _ _ h1]
  | cons kv rest ih =>
    by_cases hq : kv.1 = q
    · rw [List.cons_append, recordGet_cons_of_eq _ _ _ hq, recordGet_cons_of_eq _ _ _ hq]
    · rw [List.cons_append, recordGet_cons_of_ne _ _ _ hq, recordGet_cons_of_ne _ _ _ hq]
      exact ih

theorem any_key_eq_false_of_recordGet_none (files : List (String × FileEntry)) (p : String)
    (h : recordGet files p = none) : files.any (fun kv => kv.1 = p) = false := by
  induction files with
  | nil => rfl
  | cons kv rest ih =>
    by_cases hk : kv.1 = p
    · rw [recordGet_cons_of_eq _ _ _ hk] at h
      exact absurd h (by simp)
    · rw [recordGet_cons_of_ne _ _ _ hk] at h
      rw [List.any_cons, ih h, Bool.or_false]
      simpa using hk

theorem recordGet_recordSet_self (files : List (String × FileEntry)) (p : String)
    (e : FileEntry) : recordGet (recordSet files p e) p = some e := by
  unfold recordSet
  by_cases h : files.any (fun kv => kv.1 = p) = true
  · rw [if_pos h, recordGet_map_replace]
    cases hg : recordGet files p with
    | some e0 => rfl
    | none => rw [any_key_eq_false_of_recordGet_none files p hg] at h; exact absurd h (by simp)
  · rw [if_neg h]
    refine recordGet_append_single_self files p e ?_
    revert h
    cases files.any fun kv => kv.1 = p <;> simp

theorem recordGet_recordSet_ne (files : List (String × FileEntry)) (p q : String)
    (e : FileEntry) (hqp : q ≠ p) : recordGet (recordSet files p e) q = recordGet files q := by
  unfold recordSet
  by_cases h : files.any (fun kv => kv.1 = p) = true
  · rw [if_pos h]
    exact recordGet_map_replace_ne files p q e hqp
  · rw [if_neg h]
    exact recordGet_append_single_ne files p q e hqp

theorem needsProcessing_eq_false_iff (m : ProcessingManifest) (p c : String) :
    needsProcessing m p c = false ↔
      ∃ e, recordGet m.files p = some e ∧ e.checksum = c ∧ e.status = .processed := by
  unfold needsProcessing
  cases h : recordGet m.files p with
  | none => simp
  | some e =>
    by_cases hc : e.checksum = c
    · by_cases hs : e.status = FileStatus.processed
      · simp [hc, hs]
      · simp [hc, hs]
    · simp [hc]

theorem needsProcessing_congr (m m' : ProcessingManifest) (p c : String)
    (h : recordGet m'.files p = recordGet m.files p) :
    needsProcessing m' p c = needsProcessing m p c := by
  unfold needsProcessing
  rw [h]

theorem addFileEntry_get_self (m : ProcessingManifest) (p c : String) (now : Int) :
    ∃ e, recordGet (addFileEntry m p c now).files p = some e ∧ e.checksum = c := by
  unfold addFileEntry
  cases h : recordGet m.files p with
  | none => exact ⟨_, recordGet_recordSet_self _ _ _, rfl⟩
  | some e0 =>
    by_cases hc : e0.checksum = c
    · exact ⟨e0, by simp only [if_pos hc]; exact recordGet_recordSet_self _ _ _, hc⟩
    · exact ⟨_, by simp only [if_neg hc]; exact recordGet_recordSet_self _ _ _, rfl⟩

theorem addFileEntry_get_ne (m : ProcessingManifest) (p c : String) (now : Int)
    (q : String) (hqp : q ≠ p) :
    recordGet (addFileEntry m p c now).files q = recordGet m.files q := by
  unfold addFileEntry
  exact recordGet_recordSet_ne _ _ _ _ hqp

theorem updateFileStatus_some_of_get (m : ProcessingManifest) (p : String)
    (st : FileStatus) (err : Option String) (now : Int) (e : FileEntry)
    (h : recordGet m.files p = some e) :
    ∃ m', updateFileStatus m p st err now = some m' := by
  unfold updateFileStatus
  rw [h]
  exact ⟨_, rfl⟩

theorem updateFileStatus_get_ne (m m' : ProcessingManifest) (p : String)
    (st : FileStatus) (err : Option String) (now : Int)
    (h : updateFileStatus m p st err now = some m') (q : String) (hqp : q ≠ p) :
    recordGet m'.files q = recordGet m.files q := by
  unfold updateFileStatus at h
  cases hg : recordGet m.files p with
  | none => rw [hg] at h; exact absurd h (by simp)
  | some ex =>
    rw [hg] at h
    have hm : m' = _ := (Option.some_injective _ h).symm
    rw [hm]
    exact recordGet_recordSet_ne _ _ _ _ hqp

theorem updateFileStatus_get_self (m m' : ProcessingManifest) (p : String)
    (st : FileStatus) (err : Option String) (now : Int)
    (h : updateFileStatus m p st err now = some m') :
    ∃ ex e', recordGet m.files p = some ex ∧ recordGet m'.files p = some e' ∧
      e'.checksum = ex.checksum ∧ e'.status = st := by
  unfold updateFileStatus at h
  cases hg : recordGet m.files p with
  | none => rw [hg] at h; exact absurd h (by simp)
  | some ex =>
    rw [hg] at h
    have hm : m' = _ := (Option.some_injective _ h).symm
    subst hm
    exact ⟨ex, _, rfl, recordGet_recordSet_self _ _ _, rfl, rfl⟩

theorem syncStep_spec (proc : String → Except String ProcessResult) (now : Int)
    (acc : SyncResult) (p c : String) :
    (needsProcessing acc.manifest p c = false ∧
      syncStep proc now acc (p, c) = .ok { acc with skipped := acc.skipped + 1 }) ∨
    (needsProcessing acc.manifest p c = true ∧
      ∃ next, syncStep proc now acc (p, c) = .ok next ∧
        next.total = acc.total ∧ next.skipped = acc.skipped ∧
        (∀ q, q ≠ p → recordGet next.manifest.files q = recordGet acc.manifest.files q) ∧
        ((next.processed = acc.processed + 1 ∧ next.errors = acc.errors ∧
            needsProcessing next.manifest p c = false ∧
            acc.newFiles + acc.modified ≤ next.newFiles + next.modified ∧
            next.newFiles + next.modified ≤ acc.newFiles + acc.modified + 1 ∧
            (recordGet acc.manifest.files p = none →
              next.newFiles = acc.newFiles + 1 ∧ next.modified = acc.modified)) ∨
          (next.errors = acc.errors + 1 ∧ next.processed = acc.processed ∧
            next.newFiles = acc.newFiles ∧ next.modified = acc.modified))) := by
  by_cases hneeds : needsProcessing acc.manifest p c = true
  · right
    refine ⟨hneeds, ?_⟩
    obtain ⟨e1, he1, hc1⟩ := addFileEntry_get_self acc.manifest p c now
    obtain ⟨m2, hm2⟩ := updateFileStatus_some_of_get _ p .processing none now e1 he1
    obtain ⟨ex2, e2, hex2, he2, hck2, hst2⟩ := updateFileStatus_get_self _ _ _ _ _ _ hm2
    have hex2e1 : ex2 = e1 := by
      rw [he1] at hex2
      exact (Option.some_injective _ hex2).symm
    have he2c : e2.checksum = c := by rw [hck2, hex2e1, hc1]
    have hpres2 : ∀ q, q ≠ p → recordGet m2.files q = recordGet acc.manifest.files q := by
      intro q hq
      rw [updateFileStatus_get_ne _ _ _ _ _ _ hm2 q hq, addFileEntry_get_ne _ _ _ _ _ hq]
    cases hproc : proc p with
    | error err =>
      obtain ⟨m3, hm3⟩ := updateFileStatus_some_of_get m2 p .error (some err) now e2 he2
      have hstep : syncStep proc now acc (p, c) = .ok
          { acc with
            manifest := m3
            errors := acc.errors + 1
            errorFiles := acc.errorFiles ++ [{ path := p, error := err }] } := by
        simp [syncStep, hneeds, hm2, hproc, hm3]
      refine ⟨_, hstep, rfl, rfl, ?_, Or.inr ⟨rfl, rfl, rfl, rfl⟩⟩
      intro q hq
      rw [updateFileStatus_get_ne _ _ _ _ _ _ hm3 q hq]
      exact hpres2 q hq
    | ok pr =>
      cases hs : pr.success with
      | false =>
        obtain ⟨m3, hm3⟩ :=
          updateFileStatus_some_of_get m2 p .error (some (pr.error.getD "Unknown error")) now e2 he2
        have hstep : syncStep proc now acc (p, c) = .ok
            { acc with
              manifest := m3
              errors := acc.errors + 1
              errorFiles := acc.errorFiles ++
                [{ path := p, error := pr.error.getD "Unknown error" }] } := by
          simp [syncStep, hneeds, hm2, hproc, hs, hm3]
        refine ⟨_, hstep, rfl, rfl, ?_, Or.inr ⟨rfl, rfl, rfl, rfl⟩⟩
        intro q hq
        rw [updateFileStatus_get_ne _ _ _ _ _ _ hm3 q hq]
        exact hpres2 q hq
      | true =>
        obtain ⟨m3, hm3⟩ := updateFileStatus_some_of_get m2 p .processed none now e2 he2
        obtain ⟨ex3, e3, hex3, he3, hck3, hst3⟩ := updateFileStatus_get_self _ _ _ _ _ _ hm3
        have hex3e2 : ex3 = e2 := by
          rw [he2] at hex3
          exact (Option.some_injective _ hex3).symm
        have hnp3 : needsProcessing m3 p c = false := by
          refine (needsProcessing_eq_false_iff m3 p c).mpr ⟨e3, he3, ?_, hst3⟩
          rw [hck3, hex3e2, he2c]
        have hpres3 : ∀ q, q ≠ p → recordGet m3.files q = recordGet acc.manifest.files q := by
          intro q hq
          rw [updateFileStatus_get_ne _ _ _ _ _ _ hm3 q hq]
          exact hpres2 q hq
        cases hg : recordGet acc.manifest.files p with
        | none =>
          have hstep : syncStep proc now acc (p, c) = .ok
              { acc with
                manifest := m3
                processed := acc.processed + 1
                newFiles := acc.newFiles + 1 } := by
            simp [syncStep, hneeds, hm2, hproc, hs, hm3, getFileEntry, hg]
          exact ⟨_, hstep, rfl, rfl, hpres3,
            Or.inl ⟨rfl, rfl, hnp3, by dsimp only; omega, by dsimp only; omega,
              fun _ => ⟨rfl, rfl⟩⟩⟩
        | some e0 =>
          by_cases hb : e0.checksum = c
          · have hstep : syncStep proc now acc (p, c) = .ok
                { acc with
                  manifest := m3
                  processed := acc.processed + 1 } := by
              simp [syncStep, hneeds, hm2, hproc, hs, hm3, getFileEntry, hg, hb]
            exact ⟨_, hstep, rfl, rfl, hpres3,
              Or.inl ⟨rfl, rfl, hnp3, by dsimp only; omega, by dsimp only; omega,
                fun hcontra => absurd hcontra (by simp)⟩⟩
          · have hstep : syncStep proc now acc (p, c) = .ok
                { acc with
                  manifest := m3
                  processed := acc.processed + 1
                  modified := acc.modified + 1 } := by
              simp [syncStep, hneeds, hm2, hproc, hs, hm3, getFileEntry, hg, hb]
            exact ⟨_, hstep, rfl, rfl, hpres3,
              Or.inl ⟨rfl, rfl, hnp3, by dsimp only; omega, by dsimp only; omega,
                fun hcontra => absurd hcontra (by simp)⟩⟩
  · left
    have hfalse : needsProcessing acc.manifest p c = false := by
      revert hneeds
      cases needsProcessing acc.manifest p c <;> simp
    refine ⟨hfalse, ?_⟩
    simp [syncStep, hfalse]

theorem syncFilesLoop_errors_mono (proc : String → Except String ProcessResult) (now : Int) :
    ∀ (files : List (String × String)) (acc r : SyncResult),
      syncFilesLoop proc now acc files = .ok r → acc.errors ≤ r.errors := by
  intro files
  induction files with
  | nil =>
    intro acc r h
    simp only [syncFilesLoop] at h
    cases h
    exact Nat.le_refl _
  | cons f rest ih =>
    intro acc r h
    obtain ⟨p, c⟩ := f
    rcases syncStep_spec proc now acc p c with ⟨hnp, hstep⟩ |
      ⟨hnp, next, hstep, htot, hsk, hpres, hcase⟩
    · simp only [syncFilesLoop, hstep] at h
      have hrec := ih _ r h
      exact hrec
    · simp only [syncFilesLoop, hstep] at h
      have hle := ih next r h
      rcases hcase with ⟨_, herr, _⟩ | ⟨herr, _⟩ <;> omega

theorem syncFilesLoop_tally_le (proc : String → Except String ProcessResult) (now : Int) :
    ∀ (files : List (String × String)) (acc r : SyncResult),
      syncFilesLoop proc now acc files = .ok r →
      acc.newFiles + acc.modified ≤ acc.processed →
      r.newFiles + r.modified ≤ r.processed := by
  intro files
  induction files with
  | nil =>
    intro acc r h hle
    simp only [syncFilesLoop] at h
    cases h
    exact hle
  | cons f rest ih =>
    intro acc r h hle
    obtain ⟨p, c⟩ := f
    rcases syncStep_spec proc now acc p c with ⟨hnp, hstep⟩ |
      ⟨hnp, next, hstep, htot, hsk, hpres, hcase⟩
    · simp only [syncFilesLoop, hstep] at h
      exact ih _ r h hle
    · simp only [syncFilesLoop, hstep] at h
      refine ih next r h ?_
      rcases hcase with ⟨hp, _, _, hlo, hhi, _⟩ | ⟨_, hp, hnf, hmd⟩ <;> omega

theorem syncFilesLoop_tally_eq (proc : String → Except String ProcessResult) (now : Int) :
    ∀ (files : List (String × String)) (acc r : SyncResult),
      syncFilesLoop proc now acc files = .ok r →
      acc.newFiles + acc.modified = acc.processed →
      (∀ pc ∈ files, recordGet acc.manifest.files pc.1 = none) →
      (files.map Prod.fst).Nodup →
      r.newFiles + r.modified = r.processed := by
  intro files
  induction files with
  | nil =>
    intro acc r h heq _ _
    simp only [syncFilesLoop] at h
    cases h
    exact heq
  | cons f rest ih =>
    intro acc r h heq habs hnd
    obtain ⟨p, c⟩ := f
    have habs0 : recordGet acc.manifest.files p = none := habs (p, c) (List.mem_cons_self _ _)
    rcases syncStep_spec proc now acc p c with ⟨hnp, hstep⟩ |
      ⟨hnp, next, hstep, htot, hsk, hpres, hcase⟩
    · obtain ⟨e, he, -⟩ := (needsProcessing_eq_false_iff acc.manifest p c).mp hnp
      rw [habs0] at he
      exact absurd he (by simp)
    · simp only [syncFilesLoop, hstep] at h
      simp only [List.map_cons, List.nodup_cons] at hnd
      have hrest : ∀ pc ∈ rest, recordGet next.manifest.files pc.1 = none := by
        intro pc hpc
        have hne : pc.1 ≠ p := by
          intro hcontra
          exact hnd.1 (by rw [← hcontra]; exact List.mem_map_of_mem Prod.fst hpc)
        rw [hpres pc.1 hne]
        exact habs (pc.1, pc.2) (List.mem_cons_of_mem _ hpc)
      refine ih next r h ?_ hrest hnd.2
      rcases hcase with ⟨hp, _, _, _, _, hnew⟩ | ⟨_, hp, hnf, hmd⟩
      · obtain ⟨hnf, hmd⟩ := hnew habs0
        omega
      · omega

theorem syncFilesLoop_preserve_skip (proc : String → Except String ProcessResult) (now : Int) :
    ∀ (files : List (String × String)) (acc r : SyncResult) (p c : String),
      syncFilesLoop proc now acc files = .ok r →
      needsProcessing acc.manifest p c = false →
      (∀ c', (p, c') ∈ files → c' = c) →
      needsProcessing r.manifest p c = false := by
  intro files
  induction files with
  | nil =>
    intro acc r p c h hgood _
    simp only [syncFilesLoop] at h
    cases h
    exact hgood
  | cons f rest ih =>
    intro acc r p c h hgood hcons
    obtain ⟨q, cq⟩ := f
    rcases syncStep_spec proc now acc q cq with ⟨hnp, hstep⟩ |
      ⟨hnp, next, hstep, htot, hsk, hpres, hcase⟩
    · simp only [syncFilesLoop, hstep] at h
      exact ih _ r p c h hgood (fun c' hc' => hcons c' (List.mem_cons_of_mem _ hc'))
    · simp only [syncFilesLoop, hstep] at h
      by_cases hqp : q = p
      · subst hqp
        have hcq : cq = c := hcons cq (List.mem_cons_self _ _)
        subst hcq
        rw [hgood] at hnp
        exact absurd hnp (by simp)
      · have hkeep : needsProcessing next.manifest p c = false := by
          rw [needsProcessing_congr acc.manifest next.manifest p c
            (hpres p (fun hc => hqp hc.symm))]
          exact hgood
        exact ih next r p c h hkeep (fun c' hc' => hcons c' (List.mem_cons_of_mem _ hc'))

theorem syncFilesLoop_success_good (proc : String → Except String ProcessResult) (now : Int) :
    ∀ (files : List (String × String)) (acc r : SyncResult),
      syncFilesLoop proc now acc files = .ok r →
      r.errors = acc.errors →
      (∀ p c c', (p, c) ∈ files → (p, c') ∈ files → c = c') →
      ∀ pc ∈ files, needsProcessing r.manifest pc.1 pc.2 = false := by
  intro files
  induction files with
  | nil =>
    intro acc r h _ _ pc hpc
    exact absurd hpc (List.not_mem_nil _)
  | cons f rest ih =>
    intro acc r h herr hcons pc hpc
    obtain ⟨p, c⟩ := f
    rcases syncStep_spec proc now acc p c with ⟨hnp, hstep⟩ |
      ⟨hnp, next, hstep, htot, hsk, hpres, hcase⟩
    · simp only [syncFilesLoop, hstep] at h
      rcases List.mem_cons.mp hpc with hpc0 | hpcr
      · subst hpc0
        refine syncFilesLoop_preserve_skip proc now rest _ r p c h hnp ?_
        intro c' hc'
        exact hcons p c' c (List.mem_cons_of_mem _ hc') (List.mem_cons_self _ _)
      · exact ih _ r h herr
          (fun p' c' c'' h1 h2 =>
            hcons p' c' c'' (List.mem_cons_of_mem _ h1) (List.mem_cons_of_mem _ h2))
          pc hpcr
    · simp only [syncFilesLoop, hstep] at h
      rcases hcase with ⟨hp, herrs, hgoodnext, -⟩ | ⟨herrs, -⟩
      · rcases List.mem_cons.mp hpc with hpc0 | hpcr
        · subst hpc0
          refine syncFilesLoop_preserve_skip proc now rest _ r p c h hgoodnext ?_
          intro c' hc'
          exact hcons p c' c (List.mem_cons_of_mem _ hc') (List.mem_cons_self _ _)
        · exact ih next r h (by omega)
            (fun p' c' c'' h1 h2 =>
              hcons p' c' c'' (List.mem_cons_of_mem _ h1) (List.mem_cons_of_mem _ h2))
            pc hpcr
      · have hmono := syncFilesLoop_errors_mono proc now rest next r h
        omega

theorem syncFilesLoop_all_skip (proc : String → Except String ProcessResult) (now : Int) :
    ∀ (files : List (String × String)) (acc r : SyncResult),
      syncFilesLoop proc now acc files = .ok r →
      (∀ pc ∈ files, needsProcessing acc.manifest pc.1 pc.2 = false) →
      r.processed = acc.processed ∧ r.skipped = acc.skipped + files.length ∧
        r.total = acc.total := by
  intro files
  induction files with
  | nil =>
    intro acc r h _
    simp only [syncFilesLoop] at h
    cases h
    exact ⟨rfl, rfl, rfl⟩
  | cons f rest ih =>
    intro acc r h hgood
    obtain ⟨p, c⟩ := f
    have hg0 : needsProcessing acc.manifest p c = false :=
      hgood (p, c) (List.mem_cons_self _ _)
    rcases syncStep_spec proc now acc p c with ⟨hnp, hstep⟩ |
      ⟨hnp, next, hstep, htot, hsk, hpres, hcase⟩
    · simp only [syncFilesLoop, hstep] at h
      have hrest : ∀ pc ∈ rest, needsProcessing
          ({ acc with skipped := acc.skipped + 1 } : SyncResult).manifest pc.1 pc.2 = false :=
        fun pc hpc => hgood pc (List.mem_cons_of_mem _ hpc)
      obtain ⟨h1, h2, h3⟩ := ih _ r h hrest
      refine ⟨h1, ?_, h3⟩
      simp only [List.length_cons]
      dsimp only at h2
      omega
    · rw [hg0] at hnp
      exact absurd hnp (by simp)

/-- C8 (amended): in every `SyncResult` returned by `syncFiles`, each successfully
processed file is tallied as a brand-new path (`newFiles`) or a content change
(`modified`) except successful retries — files whose manifest entry already had
the same checksum but a non-`processed` status — which increment `processed`
only. Hence `newFiles + modified ≤ processed` always, and
`processed = newFiles + modified` when the starting manifest is empty and the
scanned paths are distinct. -/
theorem syncFiles_tally (m : ProcessingManifest) (files : List (String × String))
    (proc : String → Except String ProcessResult) (now : Int) :
    (∀ r, syncFiles m files proc now = .ok r → r.newFiles + r.modified ≤ r.processed) ∧
    (m.files = [] → (files.map Prod.fst).Nodup →
      ∀ r, syncFiles m files proc now = .ok r → r.processed = r.newFiles + r.modified) := by
  constructor
  · intro r hr
    unfold syncFiles at hr
    exact syncFilesLoop_tally_le proc now files _ r hr (Nat.le_refl 0)
  · intro hm hnd r hr
    unfold syncFiles at hr
    have habs : ∀ pc ∈ files, recordGet
        ({ total := files.length, processed := 0, skipped := 0, errors := 0,
           newFiles := 0, modified := 0, errorFiles := [],
           manifest := m } : SyncResult).manifest.files pc.1 = none := by
      intro pc hpc
      show recordGet m.files pc.1 = none
      rw [hm]
      rfl
    have heq := syncFilesLoop_tally_eq proc now files _ r hr rfl habs hnd
    omega

theorem syncFiles_tally_counterexample :
    syncFiles manifestC8 [("/r.gpx", "c")] procC8 0 = .ok resultC8 ∧
    resultC8.processed = 1 ∧ resultC8.newFiles = 0 ∧ resultC8.modified = 0 :=
  ⟨rfl, rfl, rfl, rfl⟩

theorem syncFiles_tally_witness :
    resultC8w.processed = resultC8w.newFiles + resultC8w.modified :=
  (syncFiles_tally (createManifest none 0) [("/n.gpx", "k")] procC8 0).2
    rfl (by decide) resultC8w rfl

/-- C3 (amended): when the input files and their checksums are unchanged between
two runs and the first run reported no errors, running `syncFiles` again with
the manifest returned by the first run processes 0 files: every file is counted
as skipped (`processed = 0` and `skipped = total`). A first-run processing
failure breaks this: an `error` entry is retried, not skipped. -/
theorem syncFiles_idempotent (m : ProcessingManifest) (files : List (String × String))
    (proc : String → Except String ProcessResult) (now now2 : Int)
    (hcons : ∀ p c c', (p, c) ∈ files → (p, c') ∈ files → c = c')
    (r1 : SyncResult) (h1 : syncFiles m files proc now = .ok r1) (herr : r1.errors = 0)
    (r2 : SyncResult) (h2 : syncFiles r1.manifest files proc now2 = .ok r2) :
    r2.processed = 0 ∧ r2.skipped = r2.total ∧ r2.total = files.length := by
  unfold syncFiles at h1 h2
  have hgood := syncFilesLoop_success_good proc now files _ r1 h1 herr hcons
  have hskip := syncFilesLoop_all_skip proc now2 files _ r2 h2 hgood
  obtain ⟨hp, hs, ht⟩ := hskip
  dsimp only at hp hs ht
  exact ⟨hp, by omega, ht⟩

theorem syncFiles_idempotent_counterexample :
    syncFiles (createManifest none 0) [("/f.gpx", "c1")] procC3x 0 = .ok resultC3x ∧
    syncFiles resultC3x.manifest [("/f.gpx", "c1")] procC3x 0 = .ok resultC3x ∧
    resultC3x.processed = 0 ∧ resultC3x.skipped = 0 ∧ resultC3x.total = 1 :=
  ⟨rfl, rfl, rfl, rfl, rfl⟩

theorem syncFiles_idempotent_witness :
    resultC3run2.processed = 0 ∧ resultC3run2.skipped = resultC3run2.total ∧
      resultC3run2.total = 1 :=
  syncFiles_idempotent (createManifest none 0) [("/w.gpx", "k")] procC3w 0 0
    (by
      rintro p c c' hc hc'
      simp only [List.mem_singleton, Prod.mk.injEq] at hc hc'
      rw [hc.2, hc'.2])
    resultC3run1 rfl rfl resultC3run2 rfl

/-- C1: `needsProcessing(manifest, path, checksum)` returns true iff the path has
no entry, or the stored checksum differs from the given one, or the stored
status is not `processed`; in particular a changed checksum always makes it
return true regardless of the previous status. -/
theorem needsProcessing_iff (m : ProcessingManifest) (p c : String) :
    (needsProcessing m p c = true ↔
      recordGet m.files p = none ∨
        ∃ e, recordGet m.files p = some e ∧ (e.checksum ≠ c ∨ e.status ≠ .processed)) ∧
    (∀ e, recordGet m.files p = some e → e.checksum ≠ c → needsProcessing m p c = true) := by
  constructor
  · unfold needsProcessing
    cases h : recordGet m.files p with
    | none => simp
    | some e =>
      by_cases hc : e.checksum = c
      · by_cases hs : e.status = FileStatus.processed
        · simp [hc, hs]
        · simp [hc, hs]
      · simp [hc]
  · intro e he hc
    unfold needsProcessing
    rw [he]
    simp [hc]

/-- Concrete manifest used to instantiate the C1 theorem. -/
def manifestC1 : ProcessingManifest :=
  { version := 1, pipelineVersion := "1.0.0", createdAt := 0, updatedAt := 0,
    files := [("/a.gpx",
      { checksum := "abc", status := .processed, addedAt := 0,
        processedAt := some 1, error := none, outputPath := none })] }

theorem needsProcessing_iff_witness : needsProcessing manifestC1 "/a.gpx" "xyz" = true :=
  (needsProcessing_iff manifestC1 "/a.gpx" "xyz").2
    { checksum := "abc", status := .processed, addedAt := 0,
      processedAt := some 1, error := none, outputPath := none }
    rfl (by decide)

/-- C2: `addFileEntry` inserts a fresh `pending` entry for an unknown path;
leaves the entry untouched when the path is known and the checksum unchanged
(so a `processed` status is preserved); and on a checksum change resets the
status to `pending`, stores the new checksum, and preserves the original
`addedAt`. -/
theorem addFileEntry_spec (m : ProcessingManifest) (p c : String) (now : Int) :
    (recordGet m.files p = none →
      recordGet (addFileEntry m p c now).files p =
        some { checksum := c, status := .pending, addedAt := now,
               processedAt := none, error := none, outputPath := none }) ∧
    (∀ e, recordGet m.files p = some e → e.checksum = c →
      recordGet (addFileEntry m p c now).files p = some e) ∧
    (∀ e, recordGet m.files p = some e → e.checksum ≠ c →
      recordGet (addFileEntry m p c now).files p =
        some { checksum := c, status := .pending, addedAt := e.addedAt,
               processedAt := none, error := none, outputPath := none }) := by
  refine ⟨fun h => ?_, fun e he hc => ?_, fun e he hc => ?_⟩
  · unfold addFileEntry
    rw [h]
    exact recordGet_recordSet_self m.files p _
  · unfold addFileEntry
    rw [he]
    simp only [if_pos hc]
    exact recordGet_recordSet_self m.files p e
  · unfold addFileEntry
    rw [he]
    simp only [if_neg hc]
    exact recordGet_recordSet_self m.files p _

/-- Concrete manifest used to instantiate the C2 theorem: an entry with
checksum `"abc"` advanced to `processed`. -/
def manifestC2 : ProcessingManifest :=
  { version := 1, pipelineVersion := "1.0.0", createdAt := 0, updatedAt := 0,
    files := [("/b.gpx",
      { checksum := "abc", status := .processed, addedAt := 3,
        processedAt := some 4, error := none, outputPath := none })] }

theorem addFileEntry_spec_witness :
    recordGet (addFileEntry manifestC2 "/b.gpx" "abc" 9).files "/b.gpx" =
      some { checksum := "abc", status := .processed, addedAt := 3,
             processedAt := some 4, error := none, outputPath := none } :=
  (addFileEntry_spec manifestC2 "/b.gpx" "abc" 9).2.1
    { checksum := "abc", status := .processed, addedAt := 3,
      processedAt := some 4, error := none, outputPath := none }
    rfl rfl

theorem getD_zero_of_head (l : List TrackPoint) (x : TrackPoint)
    (h : l.head? = some x) : l.getD 0 default = x := by
  cases l with
  | nil => exact absurd h (by simp)
  | cons a t =>
    exact Option.some_injective _ h

theorem getD_last_of_getLast (l : List TrackPoint) (x : TrackPoint)
    (h : l.getLast? = some x) : l.getD (l.length - 1) default = x := by
  induction l with
  | nil => exact absurd h (by simp)
  | cons a t ih =>
    cases t with
    | nil =>
      simp only [List.getLast?_singleton, Option.some_inj] at h
      rw [← h]
      rfl
    | cons b t' =>
      rw [List.getLast?_cons_cons] at h
      have hlen : (a :: b :: t').length - 1 = ((b :: t').length - 1) + 1 := by
        simp only [List.length_cons]
        omega
      rw [hlen]
      show (b :: t').getD ((b :: t').length - 1) default = x
      exact ih h

/-- C6: `analyzeGap` computes `timeGapSeconds` as the (floored) difference
between the first segment's last-point timestamp and the second segment's
first-point timestamp, 0 when a timestamp is missing and clamped at 0 when
negative; `distanceGapKm` is the great-circle distance between those points;
`shouldMerge` is `(timeGap = 0 ∨ timeGap ≤ maxTimeGapSeconds) ∧
distanceGap ≤ maxDistanceGapKm` with defaults 300 and 0.5; and an empty
segment on either side always merges. -/
theorem analyzeGap_spec (seg1 seg2 : TrackSegment)
    (options : Option SegmentProcessingOptions) :
    ((seg1.points = [] ∨ seg2.points = []) → (analyzeGap seg1 seg2 options).shouldMerge) ∧
    (∀ lastP firstP, seg1.points.getLast? = some lastP → seg2.points.head? = some firstP →
      (analyzeGap seg1 seg2 options).timeGapSeconds = specTimeGap lastP firstP ∧
      (analyzeGap seg1 seg2 options).distanceGapKm =
        haversineDistance lastP.lat lastP.lon firstP.lat firstP.lon ∧
      ((analyzeGap seg1 seg2 options).shouldMerge ↔
        (specTimeGap lastP firstP = 0 ∨
          ((specTimeGap lastP firstP : ℝ) ≤
            (options.bind (fun o => o.maxTimeGapSeconds)).getD 300)) ∧
        haversineDistance lastP.lat lastP.lon firstP.lat firstP.lon ≤
          (options.bind (fun o => o.maxDistanceGapKm)).getD 0.5)) := by
  constructor
  · intro h
    unfold analyzeGap
    have hcond : seg1.points.length = 0 ∨ seg2.points.length = 0 := by
      rcases h with h | h
      · exact Or.inl (by rw [h]; rfl)
      · exact Or.inr (by rw [h]; rfl)
    rw [if_pos hcond]
    trivial
  · intro lastP firstP hlast hfirst
    have h1 : seg1.points ≠ [] := by
      intro hc
      rw [hc] at hlast
      exact absurd hlast (by simp)
    have h2 : seg2.points ≠ [] := by
      intro hc
      rw [hc] at hfirst
      exact absurd hfirst (by simp)
    have hcond : ¬ (seg1.points.length = 0 ∨ seg2.points.length = 0) := by
      simp only [List.length_eq_zero]
      exact fun hc => hc.elim h1 h2
    unfold analyzeGap
    rw [if_neg hcond]
    dsimp only
    rw [getD_last_of_getLast _ _ hlast, getD_zero_of_head _ _ hfirst]
    exact ⟨rfl, rfl, Iff.rfl⟩

theorem analyzeGap_spec_witness :
    (analyzeGap segC6empty segC6b none).shouldMerge ∧
    ((analyzeGap segC6a segC6b none).timeGapSeconds = specTimeGap ptC6a ptC6b ∧
      (analyzeGap segC6a segC6b none).distanceGapKm =
        haversineDistance ptC6a.lat ptC6a.lon ptC6b.lat ptC6b.lon ∧
      ((analyzeGap segC6a segC6b none).shouldMerge ↔
        (specTimeGap ptC6a ptC6b = 0 ∨
          ((specTimeGap ptC6a ptC6b : ℝ) ≤
            ((none : Option SegmentProcessingOptions).bind
              (fun o => o.maxTimeGapSeconds)).getD 300)) ∧
        haversineDistance ptC6a.lat ptC6a.lon ptC6b.lat ptC6b.lon ≤
          ((none : Option SegmentProcessingOptions).bind
            (fun o => o.maxDistanceGapKm)).getD 0.5)) :=
  ⟨(analyzeGap_spec segC6empty segC6b none).1 (Or.inl rfl),
    (analyzeGap_spec segC6a segC6b none).2 ptC6a ptC6b (by rfl) (by rfl)⟩

theorem processSegmentsStep_join (options : Option SegmentProcessingOptions)
    (rest : List TrackSegment) :
    ∀ (res : List TrackSegment) (gaps : List GapAnalysis) (cur : TrackSegment),
      ((((rest.foldl (processSegmentsStep options) (res, gaps, cur)).1) ++
        [(rest.foldl (processSegmentsStep options) (res, gaps, cur)).2.2]).map
          TrackSegment.points).join =
      ((res ++ [cur]).map TrackSegment.points).join ++
        (rest.map TrackSegment.points).join := by
  induction rest with
  | nil =>
    intro res gaps cur
    simp
  | cons nxt rest' ih =>
    intro res gaps cur
    rw [List.foldl_cons]
    by_cases hm : (analyzeGap cur nxt options).shouldMerge
    · rw [show processSegmentsStep options (res, gaps, cur) nxt =
        (res, gaps ++ [analyzeGap cur nxt options],
          ({ points := cur.points ++ nxt.points } : TrackSegment)) by
          unfold processSegmentsStep; rw [if_pos hm]]
      rw [ih]
      simp [List.append_assoc]
    · rw [show processSegmentsStep options (res, gaps, cur) nxt =
        (res ++ [cur], gaps ++ [analyzeGap cur nxt options],
          ({ points := nxt.points } : TrackSegment)) by
          unfold processSegmentsStep; rw [if_neg hm]]
      rw [ih]
      simp [List.append_assoc]

theorem foldl_max_bounds (l : List ℝ) : ∀ a : ℝ,
    a ≤ l.foldl max a ∧ ∀ x ∈ l, x ≤ l.foldl max a := by
  induction l with
  | nil => exact fun a => ⟨le_refl a, fun x hx => absurd hx (List.not_mem_nil x)⟩
  | cons e l' ih =>
    intro a
    rw [List.foldl_cons]
    refine ⟨le_trans (le_max_left a e) (ih (max a e)).1, fun x hx => ?_⟩
    rcases List.mem_cons.mp hx with hx0 | hxr
    · rw [hx0]
      exact le_trans (le_max_right a e) (ih (max a e)).1
    · exact (ih (max a e)).2 x hxr

theorem foldl_min_bounds (l : List ℝ) : ∀ a : ℝ,
    l.foldl min a ≤ a ∧ ∀ x ∈ l, l.foldl min a ≤ x := by
  induction l with
  | nil => exact fun a => ⟨le_refl a, fun x hx => absurd hx (List.not_mem_nil x)⟩
  | cons e l' ih =>
    intro a
    rw [List.foldl_cons]
    refine ⟨le_trans (ih (min a e)).1 (min_le_left a e), fun x hx => ?_⟩
    rcases List.mem_cons.mp hx with hx0 | hxr
    · rw [hx0]
      exact le_trans (ih (min a e)).1 (min_le_right a e)
    · exact (ih (min a e)).2 x hxr

theorem mem_le_listMax (l : List ℝ) (x : ℝ) (h : x ∈ l) : x ≤ listMax l := by
  cases l with
  | nil => exact absurd h (List.not_mem_nil x)
  | cons e es =>
    rcases List.mem_cons.mp h with h0 | hr
    · rw [h0]
      exact (foldl_max_bounds es e).1
    · exact (foldl_max_bounds es e).2 x hr

theorem listMin_le_mem (l : List ℝ) (x : ℝ) (h : x ∈ l) : listMin l ≤ x := by
  cases l with
  | nil => exact absurd h (List.not_mem_nil x)
  | cons e es =>
    rcases List.mem_cons.mp h with h0 | hr
    · rw [h0]
      exact (foldl_min_bounds es e).1
    · exact (foldl_min_bounds es e).2 x hr

theorem specElevWalk_zero_fold (t : ℝ) : ∀ (l : List ℝ), (∀ x ∈ l, x = (0 : ℝ)) →
    ∀ g lo : ℝ, l.foldl (specElevStep t) (0, g, lo) = (0, g, lo) := by
  intro l
  induction l with
  | nil => exact fun _ g lo => rfl
  | cons e l' ih =>
    intro hz g lo
    have he : e = 0 := hz e (List.mem_cons_self _ _)
    subst he
    rw [List.foldl_cons]
    have hstep : specElevStep t ((0 : ℝ), g, lo) 0 = (0, g, lo) := by
      unfold specElevStep
      by_cases hc : t ≤ |(0 : ℝ) - 0|
      · rw [if_pos hc]
        norm_num
      · rw [if_neg hc]
    rw [hstep]
    exact ih (fun x hx => hz x (List.mem_cons_of_mem _ hx)) g lo

theorem elevStep_foldl_eq (t : ℝ) : ∀ (l : List ℝ) (g lo ref : ℝ),
    l.foldl (elevStep t) (g, lo, ref) =
      ((l.foldl (specElevStep t) (ref, g, lo)).2.1,
        (l.foldl (specElevStep t) (ref, g, lo)).2.2,
        (l.foldl (specElevStep t) (ref, g, lo)).1) := by
  intro l
  induction l with
  | nil => exact fun g lo ref => rfl
  | cons e l' ih =>
    intro g lo ref
    rw [List.foldl_cons, List.foldl_cons]
    have hcode : elevStep t (g, lo, ref) e =
        if t ≤ |e - ref| then
          (if 0 < e - ref then (g + (e - ref), lo, e) else (g, lo + |e - ref|, e))
        else (g, lo, ref) := rfl
    have hspec : specElevStep t (ref, g, lo) e =
        if t ≤ |e - ref| then
          (if 0 < e - ref then (e, g + (e - ref), lo) else (e, g, lo + |e - ref|))
        else (ref, g, lo) := by
      unfold specElevStep
      dsimp only
      by_cases hd : 0 < e - ref
      · simp only [if_pos hd]
      · simp only [if_neg hd]
    rw [hcode, hspec]
    by_cases hc : t ≤ |e - ref|
    · rw [if_pos hc, if_pos hc]
      by_cases hd : 0 < e - ref
      · rw [if_pos hd, if_pos hd]
        exact ih (g + (e - ref)) lo e
      · rw [if_neg hd, if_neg hd]
        exact ih g (lo + |e - ref|) e
    · rw [if_neg hc, if_neg hc]
      exact ih g lo ref

theorem jsRound_zero : jsRound 0 = 0 := by
  unfold jsRound
  rw [Int.floor_eq_iff]
  constructor <;> norm_num

/-- C7 (amended): `calculateElevationStats` accumulates into gain or loss only
when the absolute change of the current elevation from the last significant
elevation is at least (≥, not strictly greater than) the noise threshold,
resetting the reference to the new value after each accumulation: its gain and
loss are exactly the rounded components of the reference walk `specElevWalk`.
In particular, elevations [100, 101, 100, 110, 105] with the default 2 m
threshold yield gain 10, inside [8, 12]. -/
theorem calculateElevationStats_spec (points : List TrackPoint) (threshold : ℝ) :
    ((calculateElevationStats points threshold).gain =
        ((jsRound (specElevWalk (points.map TrackPoint.ele) threshold).1 : Int) : ℝ) ∧
      (calculateElevationStats points threshold).loss =
        ((jsRound (specElevWalk (points.map TrackPoint.ele) threshold).2 : Int) : ℝ)) ∧
    ((calculateElevationStats elevScenario 2).gain = 10 ∧
      8 ≤ (calculateElevationStats elevScenario 2).gain ∧
      (calculateElevationStats elevScenario 2).gain ≤ 12) := by
  constructor
  · unfold calculateElevationStats specElevWalk
    cases hm : points.map TrackPoint.ele with
    | nil =>
      dsimp only
      rw [jsRound_zero]
      norm_num
    | cons e0 erest =>
      dsimp only
      by_cases hguard : listMax (e0 :: erest) = 0 ∧ listMin (e0 :: erest) = 0
      · rw [if_pos hguard]
        have hz : ∀ x ∈ (e0 :: erest), x = (0 : ℝ) := by
          intro x hx
          have h1 := mem_le_listMax _ x hx
          have h2 := listMin_le_mem _ x hx
          rw [hguard.1] at h1
          rw [hguard.2] at h2
          linarith
        have he0 : e0 = 0 := hz e0 (List.mem_cons_self _ _)
        subst he0
        rw [specElevWalk_zero_fold threshold erest
          (fun x hx => hz x (List.mem_cons_of_mem _ hx)) 0 0]
        dsimp only
        rw [jsRound_zero]
        norm_num
      · rw [if_neg hguard]
        rw [elevStep_foldl_eq threshold erest 0 0 e0]
        exact ⟨rfl, rfl⟩
  · have hgain : (calculateElevationStats elevScenario 2).gain = 10 := by
      have hmap : elevScenario.map TrackPoint.ele =
          [(100 : ℝ), 101, 100, 110, 105] := rfl
      unfold calculateElevationStats
      rw [hmap]
      dsimp only
      have hmax : listMax [(100 : ℝ), 101, 100, 110, 105] = 110 := by
        unfold listMax
        simp only [List.foldl_cons, List.foldl_nil]
        rw [max_eq_right (by norm_num : (100 : ℝ) ≤ 101),
          max_eq_left (by norm_num : (100 : ℝ) ≤ 101),
          max_eq_right (by norm_num : (101 : ℝ) ≤ 110),
          max_eq_left (by norm_num : (105 : ℝ) ≤ 110)]
      have hguard : ¬ (listMax [(100 : ℝ), 101, 100, 110, 105] = 0 ∧
          listMin [(100 : ℝ), 101, 100, 110, 105] = 0) := by
        rw [hmax]
        norm_num
      rw [if_neg hguard]
      have hs1 : elevStep 2 ((0 : ℝ), (0 : ℝ), (100 : ℝ)) 101 = (0, 0, 100) := by
        unfold elevStep
        dsimp only
        rw [show (101 : ℝ) - 100 = 1 by norm_num, abs_one,
          if_neg (by norm_num : ¬ (1 : ℝ) ≥ 2)]
      have hs2 : elevStep 2 ((0 : ℝ), (0 : ℝ), (100 : ℝ)) 100 = (0, 0, 100) := by
        unfold elevStep
        dsimp only
        rw [show (100 : ℝ) - 100 = 0 by norm_num, abs_zero,
          if_neg (by norm_num : ¬ (0 : ℝ) ≥ 2)]
      have hs3 : elevStep 2 ((0 : ℝ), (0 : ℝ), (100 : ℝ)) 110 = (10, 0, 110) := by
        unfold elevStep
        dsimp only
        rw [show (110 : ℝ) - 100 = 10 by norm_num,
          show |(10 : ℝ)| = 10 from abs_of_pos (by norm_num),
          if_pos (by norm_num : (10 : ℝ) ≥ 2), if_pos (by norm_num : (0 : ℝ) < 10)]
        norm_num
      have hs4 : elevStep 2 ((10 : ℝ), (0 : ℝ), (110 : ℝ)) 105 = (10, 5, 105) := by
        unfold elevStep
        dsimp only
        rw [show (105 : ℝ) - 110 = -5 by norm_num,
          show |(-5 : ℝ)| = 5 by rw [abs_neg]; exact abs_of_pos (by norm_num),
          if_pos (by norm_num : (5 : ℝ) ≥ 2), if_neg (by norm_num : ¬ (0 : ℝ) < -5)]
        norm_num
      simp only [List.foldl_cons, List.foldl_nil, hs1, hs2, hs3, hs4]
      rw [show jsRound 10 = 10 by
        unfold jsRound
        rw [Int.floor_eq_iff]
        constructor <;> norm_num]
      norm_num
    refine ⟨hgain, ?_, ?_⟩ <;> rw [hgain] <;> norm_num

theorem calculateElevationStats_counterexample :
    (calculateElevationStats [elevPt 100, elevPt 102] 2).gain = 2 ∧
    (specElevWalkStrict [(100 : ℝ), 102] 2).1 = 0 ∧
    ¬ ((2 : ℝ) < |(102 : ℝ) - 100|) := by
  refine ⟨?_, ?_, ?_⟩
  · have hmap : ([elevPt 100, elevPt 102] : List TrackPoint).map TrackPoint.ele =
        [(100 : ℝ), 102] := rfl
    unfold calculateElevationStats
    rw [hmap]
    dsimp only
    have hmax : listMax [(100 : ℝ), 102] = 102 := by
      unfold listMax
      simp only [List.foldl_cons, List.foldl_nil]
      exact max_eq_right (by norm_num)
    have hguard : ¬ (listMax [(100 : ℝ), 102] = 0 ∧ listMin [(100 : ℝ), 102] = 0) := by
      rw [hmax]
      norm_num
    rw [if_neg hguard]
    have hs : elevStep 2 ((0 : ℝ), (0 : ℝ), (100 : ℝ)) 102 = (2, 0, 102) := by
      unfold elevStep
      dsimp only
      rw [show (102 : ℝ) - 100 = 2 by norm_num,
        show |(2 : ℝ)| = 2 from abs_of_pos (by norm_num),
        if_pos (by norm_num : (2 : ℝ) ≥ 2), if_pos (by norm_num : (0 : ℝ) < 2)]
      norm_num
    simp only [List.foldl_cons, List.foldl_nil, hs]
    rw [show jsRound 2 = 2 by
      unfold jsRound
      rw [Int.floor_eq_iff]
      constructor <;> norm_num]
    norm_num
  · unfold specElevWalkStrict
    dsimp only
    have hs : specElevStepStrict 2 ((100 : ℝ), 0, 0) 102 = (100, 0, 0) := by
      unfold specElevStepStrict
      dsimp only
      rw [show (102 : ℝ) - 100 = 2 by norm_num,
        show |(2 : ℝ)| = 2 from abs_of_pos (by norm_num),
        if_neg (by norm_num : ¬ (2 : ℝ) < 2)]
    simp only [List.foldl_cons, List.foldl_nil, hs]
  · rw [show (102 : ℝ) - 100 = 2 by norm_num,
      show |(2 : ℝ)| = 2 from abs_of_pos (by norm_num)]
    norm_num

theorem getD_set_true_mono (l : List Bool) : ∀ i j : Nat,
    l.getD i false = true → (l.set j true).getD i false = true := by
  induction l with
  | nil =>
    intro i j h
    exact absurd h (by simp [List.getD])
  | cons a t ih =>
    intro i j h
    cases j with
    | zero =>
      cases i with
      | zero => rfl
      | succ i' => exact h
    | succ j' =>
      cases i with
      | zero => exact h
      | succ i' => exact ih i' j' h

theorem getD_set_true_self (l : List Bool) : ∀ i : Nat,
    i < l.length → (l.set i true).getD i false = true := by
  induction l with
  | nil =>
    intro i h
    exact absurd h (by simp)
  | cons a t ih =>
    intro i h
    cases i with
    | zero => rfl
    | succ i' => exact ih i' (by simpa using h)

theorem dpLoop_length (points : List TrackPoint) (tol w : ℝ) :
    ∀ (fuel : Nat) (stack : List (Nat × Nat)) (keep : List Bool),
      (dpLoop points tol w fuel stack keep).length = keep.length := by
  intro fuel
  induction fuel with
  | zero => intro stack keep; rfl
  | succ fuel ih =>
    intro stack keep
    cases stack with
    | nil => rfl
    | cons se rest =>
      obtain ⟨s, e⟩ := se
      simp only [dpLoop]
      by_cases htriv : e - s ≤ 1
      · rw [if_pos htriv]
        exact ih rest keep
      · rw [if_neg htriv]
        by_cases hpos : (findMaxDistance points w s e).1 > tol
        · rw [if_pos hpos, ih, List.length_set]
        · rw [if_neg hpos]
          exact ih rest keep

theorem dpLoop_mono (points : List TrackPoint) (tol w : ℝ) :
    ∀ (fuel : Nat) (stack : List (Nat × Nat)) (keep : List Bool) (i : Nat),
      keep.getD i false = true →
      (dpLoop points tol w fuel stack keep).getD i false = true := by
  intro fuel
  induction fuel with
  | zero => intro stack keep i h; exact h
  | succ fuel ih =>
    intro stack keep i h
    cases stack with
    | nil => exact h
    | cons se rest =>
      obtain ⟨s, e⟩ := se
      simp only [dpLoop]
      by_cases htriv : e - s ≤ 1
      · rw [if_pos htriv]
        exact ih rest keep i h
      · rw [if_neg htriv]
        by_cases hpos : (findMaxDistance points w s e).1 > tol
        · rw [if_pos hpos]
          exact ih _ _ i (getD_set_true_mono keep i _ h)
        · rw [if_neg hpos]
          exact ih rest keep i h

theorem filterByKeep_sublist : ∀ (ps : List TrackPoint) (bs : List Bool),
    (filterByKeep ps bs).Sublist ps := by
  intro ps
  induction ps with
  | nil =>
    intro bs
    cases bs <;> exact List.Sublist.refl []
  | cons p ps' ih =>
    intro bs
    cases bs with
    | nil => exact List.nil_sublist _
    | cons b bs' =>
      cases b with
      | true =>
        show (if true = true then p :: filterByKeep ps' bs' else filterByKeep ps' bs').Sublist _
        rw [if_pos rfl]
        exact List.Sublist.cons₂ p (ih bs')
      | false =>
        show (if false = true then p :: filterByKeep ps' bs' else filterByKeep ps' bs').Sublist _
        rw [if_neg (by simp)]
        exact List.Sublist.cons p (ih bs')

theorem filterByKeep_head (ps : List TrackPoint) (bs : List Bool)
    (hne : ps ≠ []) (hb : bs.getD 0 false = true) :
    (filterByKeep ps bs).head? = ps.head? := by
  cases ps with
  | nil => exact absurd rfl hne
  | cons p ps' =>
    cases bs with
    | nil => exact absurd hb (by simp [List.getD])
    | cons b bs' =>
      have hbt : b = true := hb
      rw [hbt]
      show (if true = true then p :: filterByKeep ps' bs' else filterByKeep ps' bs').head? = _
      rw [if_pos rfl]
      rfl

theorem filterByKeep_getLast : ∀ (ps : List TrackPoint) (bs : List Bool),
    bs.length = ps.length → bs.getD (ps.length - 1) false = true → ps ≠ [] →
    (filterByKeep ps bs).getLast? = ps.getLast? := by
  intro ps
  induction ps with
  | nil => intro bs _ _ hne; exact absurd rfl hne
  | cons p ps' ih =>
    intro bs hlen hb hne
    cases bs with
    | nil => exact absurd hlen (by simp)
    | cons b bs' =>
      cases ps' with
      | nil =>
        have hbs' : bs' = [] := by
          have := hlen
          simp only [List.length_cons, List.length_nil] at this
          exact List.length_eq_zero.mp (by omega)
        subst hbs'
        have hbt : b = true := hb
        rw [hbt]
        show (if true = true then [p] else []).getLast? = _
        rw [if_pos rfl]
      | cons q ps'' =>
        have hlen' : bs'.length = (q :: ps'').length := by
          simpa using hlen
        have hb' : bs'.getD ((q :: ps'').length - 1) false = true := by
          have hidx : (p :: q :: ps'').length - 1 = ((q :: ps'').length - 1) + 1 := by
            simp only [List.length_cons]
            omega
          rw [hidx] at hb
          exact hb
        have hrec := ih bs' hlen' hb' (by simp)
        have hFne : filterByKeep (q :: ps'') bs' ≠ [] := by
          intro hc
          rw [hc] at hrec
          have hnone : (q :: ps'').getLast? = none := hrec.symm
          rw [List.getLast?_eq_none_iff] at hnone
          exact absurd hnone (by simp)
        have hstep : (p :: q :: ps'').getLast? = (q :: ps'').getLast? :=
          List.getLast?_cons_cons
        cases b with
        | true =>
          show (if true = true then p :: filterByKeep (q :: ps'') bs'
            else filterByKeep (q :: ps'') bs').getLast? = _
          rw [if_pos rfl]
          cases hF : filterByKeep (q :: ps'') bs' with
          | nil => exact absurd hF hFne
          | cons f fs =>
            rw [hstep, ← hrec, hF]
            exact List.getLast?_cons_cons
        | false =>
          show (if false = true then p :: filterByKeep (q :: ps'') bs'
            else filterByKeep (q :: ps'') bs').getLast? = _
          rw [if_neg (by simp), hstep]
          exact hrec

theorem filterByKeep_length_all : ∀ (ps : List TrackPoint) (bs : List Bool),
    bs.length = ps.length → (∀ j, j < ps.length → bs.getD j false = true) →
    (filterByKeep ps bs).length = ps.length := by
  intro ps
  induction ps with
  | nil => intro bs _ _; cases bs <;> rfl
  | cons p ps' ih =>
    intro bs hlen hall
    cases bs with
    | nil => exact absurd hlen (by simp)
    | cons b bs' =>
      have hbt : b = true := hall 0 (by simp)
      rw [hbt]
      show (if true = true then p :: filterByKeep ps' bs' else filterByKeep ps' bs').length = _
      rw [if_pos rfl]
      simp only [List.length_cons]
      rw [ih bs' (by simpa using hlen) (fun j hj => hall (j + 1) (by simpa using hj))]

theorem keep0_facts (n : Nat) (hn : 3 ≤ n) :
    (((List.replicate n false).set 0 true).set (n - 1) true).length = n ∧
    (((List.replicate n false).set 0 true).set (n - 1) true).getD 0 false = true ∧
    (((List.replicate n false).set 0 true).set (n - 1) true).getD (n - 1) false = true := by
  refine ⟨by simp, ?_, ?_⟩
  · apply getD_set_true_mono
    apply getD_set_true_self
    simp only [List.length_replicate]
    omega
  · apply getD_set_true_self
    simp only [List.length_set, List.length_replicate]
    omega

/-- C5: for every nonnegative tolerance and every elevation weight, `simplify3D`
returns a subsequence of its input whose first and last elements equal the
first and last input points, and returns every input of length ≤ 2 unchanged.
(The nonnegativity hypothesis marks the domain on which the source loop
terminates; a distance tolerance is nonnegative.) -/
theorem simplify3D_shape (points : List TrackPoint) (tolerance elevationWeight : ℝ)
    (htol : 0 ≤ tolerance) :
    (simplify3D points tolerance elevationWeight).Sublist points ∧
    (simplify3D points tolerance elevationWeight).head? = points.head? ∧
    (simplify3D points tolerance elevationWeight).getLast? = points.getLast? ∧
    (points.length ≤ 2 → simplify3D points tolerance elevationWeight = points) := by
  unfold simplify3D
  by_cases hn : points.length ≤ 2
  · rw [if_pos hn]
    exact ⟨List.Sublist.refl _, rfl, rfl, fun _ => rfl⟩
  · rw [if_neg hn]
    unfold douglasPeuckerIterative
    dsimp only
    rw [if_neg hn]
    have hn3 : 3 ≤ points.length := by omega
    obtain ⟨hk0len, hk00, hk0l⟩ := keep0_facts points.length hn3
    have hlenF : (dpLoop points (tolerance * METERS_PER_DEGREE_LAT) elevationWeight
        (2 * points.length + 2) [(0, points.length - 1)]
        (((List.replicate points.length false).set 0 true).set
          (points.length - 1) true)).length = points.length := by
      rw [dpLoop_length]
      exact hk0len
    have hF0 := dpLoop_mono points (tolerance * METERS_PER_DEGREE_LAT) elevationWeight
      (2 * points.length + 2) [(0, points.length - 1)] _ 0 hk00
    have hFl := dpLoop_mono points (tolerance * METERS_PER_DEGREE_LAT) elevationWeight
      (2 * points.length + 2) [(0, points.length - 1)] _ (points.length - 1) hk0l
    have hne : points ≠ [] := by
      intro hc
      rw [hc] at hn
      exact hn (by simp)
    exact ⟨filterByKeep_sublist _ _, filterByKeep_head _ _ hne hF0,
      filterByKeep_getLast _ _ hlenF hFl hne, fun hc => absurd hc hn⟩

theorem simplify3D_shape_witness :
    (simplify3D [ptC5a, ptC5b] 0 1).Sublist [ptC5a, ptC5b] ∧
    (simplify3D [ptC5a, ptC5b] 0 1).head? = ([ptC5a, ptC5b] : List TrackPoint).head? ∧
    (simplify3D [ptC5a, ptC5b] 0 1).getLast? = ([ptC5a, ptC5b] : List TrackPoint).getLast? ∧
    simplify3D [ptC5a, ptC5b] 0 1 = [ptC5a, ptC5b] := by
  have h := simplify3D_shape [ptC5a, ptC5b] 0 1 le_rfl
  exact ⟨h.1, h.2.1, h.2.2.1, h.2.2.2 (by simp)⟩

theorem foldl_argmax_ge (d : Nat → ℝ) : ∀ (l : List Nat) (acc : ℝ × Nat),
    acc.1 ≤ (l.foldl (fun a j => if d j > a.1 then (d j, j) else a) acc).1 ∧
    ∀ i ∈ l, d i ≤ (l.foldl (fun a j => if d j > a.1 then (d j, j) else a) acc).1 := by
  intro l
  induction l with
  | nil =>
    exact fun acc => ⟨le_refl _, fun i hi => absurd hi (List.not_mem_nil i)⟩
  | cons j l' ih =>
    intro acc
    rw [List.foldl_cons]
    have hstep : acc.1 ≤ (if d j > acc.1 then (d j, j) else acc).1 ∧
        d j ≤ (if d j > acc.1 then (d j, j) else acc).1 := by
      by_cases hu : d j > acc.1
      · rw [if_pos hu]
        exact ⟨le_of_lt hu, le_refl _⟩
      · rw [if_neg hu]
        exact ⟨le_refl _, le_of_not_lt hu⟩
    refine ⟨le_trans hstep.1 (ih _).1, fun i hi => ?_⟩
    rcases List.mem_cons.mp hi with hi0 | hir
    · rw [hi0]
      exact le_trans hstep.2 (ih _).1
    · exact (ih _).2 i hir

theorem foldl_argmax_result (d : Nat → ℝ) : ∀ (l : List Nat) (acc : ℝ × Nat),
    (l.foldl (fun a j => if d j > a.1 then (d j, j) else a) acc) = acc ∨
    (l.foldl (fun a j => if d j > a.1 then (d j, j) else a) acc).2 ∈ l := by
  intro l
  induction l with
  | nil => exact fun acc => Or.inl rfl
  | cons j l' ih =>
    intro acc
    rw [List.foldl_cons]
    by_cases hu : d j > acc.1
    · rw [if_pos hu]
      rcases ih (d j, j) with h | h
      · exact Or.inr (by rw [h]; exact List.mem_cons_self _ _)
      · exact Or.inr (List.mem_cons_of_mem _ h)
    · rw [if_neg hu]
      rcases ih acc with h | h
      · exact Or.inl h
      · exact Or.inr (List.mem_cons_of_mem _ h)

theorem findMaxDistance_ge (points : List TrackPoint) (w : ℝ) (s e i : Nat)
    (h1 : s + 1 ≤ i) (h2 : i < e) :
    perpendicularDistance3D (points.getD i default) (points.getD s default)
      (points.getD e default) w ≤ (findMaxDistance points w s e).1 := by
  have hmem : i ∈ List.range' (s + 1) (e - s - 1) := by
    rw [List.mem_range'_1]
    omega
  exact (foldl_argmax_ge
    (fun i => perpendicularDistance3D (points.getD i default) (points.getD s default)
      (points.getD e default) w)
    (List.range' (s + 1) (e - s - 1)) (0, s)).2 i hmem

theorem findMaxDistance_pos_index (points : List TrackPoint) (w : ℝ) (s e : Nat)
    (h : 0 < (findMaxDistance points w s e).1) :
    s + 1 ≤ (findMaxDistance points w s e).2 ∧ (findMaxDistance points w s e).2 < e := by
  rcases foldl_argmax_result
      (fun i => perpendicularDistance3D (points.getD i default) (points.getD s default)
        (points.getD e default) w)
      (List.range' (s + 1) (e - s - 1)) (0, s) with hr | hr
  · have h0 : findMaxDistance points w s e = ((0 : ℝ), s) := hr
    rw [h0] at h
    exact absurd h (by norm_num)
  · have hmem : (findMaxDistance points w s e).2 ∈ List.range' (s + 1) (e - s - 1) := hr
    rw [List.mem_range'_1] at hmem
    omega

theorem dpLoop_all_true (points : List TrackPoint) (w : ℝ)
    (hgp : ∀ s m e, s < m → m < e → e < points.length →
      0 < perpendicularDistance3D (points.getD m default) (points.getD s default)
        (points.getD e default) w) :
    ∀ (fuel : Nat) (stack : List (Nat × Nat)) (keep : List Bool),
      stackPhi stack ≤ fuel →
      keep.length = points.length →
      (∀ se ∈ stack, se.1 < se.2 ∧ se.2 < points.length) →
      (∀ j, 0 < j → j + 1 < points.length →
        keep.getD j false = true ∨ ∃ se ∈ stack, se.1 < j ∧ j < se.2) →
      keep.getD 0 false = true →
      keep.getD (points.length - 1) false = true →
      ∀ j, j < points.length → (dpLoop points 0 w fuel stack keep).getD j false = true := by
  intro fuel
  induction fuel with
  | zero =>
    intro stack keep hphi hlen hwf hcov h0 hl j hj
    have hstack : stack = [] := by
      cases stack with
      | nil => rfl
      | cons se rest =>
        exfalso
        unfold stackPhi at hphi
        rw [List.map_cons, List.sum_cons] at hphi
        omega
    subst hstack
    show keep.getD j false = true
    by_cases hj0 : j = 0
    · rw [hj0]; exact h0
    · by_cases hjl : j = points.length - 1
      · rw [hjl]; exact hl
      · rcases hcov j (by omega) (by omega) with hk | ⟨se, hse, -⟩
        · exact hk
        · exact absurd hse (List.not_mem_nil se)
  | succ fuel ih =>
    intro stack keep hphi hlen hwf hcov h0 hl j hj
    cases stack with
    | nil =>
      show keep.getD j false = true
      by_cases hj0 : j = 0
      · rw [hj0]; exact h0
      · by_cases hjl : j = points.length - 1
        · rw [hjl]; exact hl
        · rcases hcov j (by omega) (by omega) with hk | ⟨se, hse, -⟩
          · exact hk
          · exact absurd hse (List.not_mem_nil se)
    | cons se rest =>
      obtain ⟨s, e⟩ := se
      obtain ⟨hse, hen⟩ := hwf (s, e) (List.mem_cons_self _ _)
      have hphi' : stackPhi ((s, e) :: rest) = 2 * (e - s - 1) + 1 + stackPhi rest := by
        unfold stackPhi
        rw [List.map_cons, List.sum_cons]
      simp only [dpLoop]
      by_cases htriv : e - s ≤ 1
      · rw [if_pos htriv]
        refine ih rest keep (by omega) hlen
          (fun se' hse' => hwf se' (List.mem_cons_of_mem _ hse')) ?_ h0 hl j hj
        intro j' hj1 hj2
        rcases hcov j' hj1 hj2 with hk | ⟨se', hse', hc1, hc2⟩
        · exact Or.inl hk
        · rcases List.mem_cons.mp hse' with hse0 | hser
          · exfalso
            rw [hse0] at hc1 hc2
            omega
          · exact Or.inr ⟨se', hser, hc1, hc2⟩
      · rw [if_neg htriv]
        have hpos : (findMaxDistance points w s e).1 > 0 :=
          lt_of_lt_of_le (hgp s (s + 1) e (by omega) (by omega) hen)
            (findMaxDistance_ge points w s e (s + 1) (le_refl _) (by omega))
        rw [if_pos hpos]
        obtain ⟨hm1, hm2⟩ := findMaxDistance_pos_index points w s e hpos
        refine ih _ _ ?_ (by rw [List.length_set]; exact hlen) ?_ ?_
          (getD_set_true_mono keep 0 _ h0) (getD_set_true_mono keep _ _ hl) j hj
        · have hphinew : stackPhi (((findMaxDistance points w s e).2, e) ::
              (s, (findMaxDistance points w s e).2) :: rest) =
              2 * (e - (findMaxDistance points w s e).2 - 1) + 1 +
                (2 * ((findMaxDistance points w s e).2 - s - 1) + 1 + stackPhi rest) := by
            unfold stackPhi
            rw [List.map_cons, List.map_cons, List.sum_cons, List.sum_cons]
          rw [hphinew]
          omega
        · intro se' hse'
          rcases List.mem_cons.mp hse' with h1 | h1
          · rw [h1]
            exact ⟨by omega, hen⟩
          · rcases List.mem_cons.mp h1 with h2 | h2
            · rw [h2]
              exact ⟨by omega, by omega⟩
            · exact hwf se' (List.mem_cons_of_mem _ h2)
        · intro j' hj1 hj2
          rcases hcov j' hj1 hj2 with hk | ⟨se', hse', hc1, hc2⟩
          · exact Or.inl (getD_set_true_mono keep j' _ hk)
          · rcases List.mem_cons.mp hse' with hse0 | hser
            · have hc1' : s < j' := by rw [hse0] at hc1; exact hc1
              have hc2' : j' < e := by rw [hse0] at hc2; exact hc2
              rcases Nat.lt_trichotomy j' (findMaxDistance points w s e).2 with hlt | heq | hgt
              · exact Or.inr ⟨(s, (findMaxDistance points w s e).2),
                  List.mem_cons_of_mem _ (List.mem_cons_self _ _), hc1', hlt⟩
              · refine Or.inl ?_
                rw [heq]
                exact getD_set_true_self keep _ (by rw [hlen]; omega)
              · exact Or.inr ⟨((findMaxDistance points w s e).2, e),
                  List.mem_cons_self _ _, hgt, hc2'⟩
            · exact Or.inr ⟨se', List.mem_cons_of_mem _ (List.mem_cons_of_mem _ hser),
                hc1, hc2⟩

/-- C4 (amended): `simplify3D` with tolerance 0 returns all points whenever the
input is in general position — no interior point lies at exactly zero 3D
deviation from the chord between two other points. For such inputs the output
length equals the input length; exactly-collinear or duplicated interior
points, whose deviation is exactly zero, may still be dropped because the
source keeps a point only when its deviation is strictly greater than the
tolerance. -/
theorem simplify3D_tol_zero (points : List TrackPoint) (elevationWeight : ℝ)
    (hgp : ∀ s m e, s < m → m < e → e < points.length →
      0 < perpendicularDistance3D (points.getD m default) (points.getD s default)
        (points.getD e default) elevationWeight) :
    (simplify3D points 0 elevationWeight).length = points.length := by
  unfold simplify3D
  by_cases hn : points.length ≤ 2
  · rw [if_pos hn]
  · rw [if_neg hn]
    unfold douglasPeuckerIterative
    dsimp only
    rw [if_neg hn]
    have hn3 : 3 ≤ points.length := by omega
    obtain ⟨hk0len, hk00, hk0l⟩ := keep0_facts points.length hn3
    rw [zero_mul]
    have hall := dpLoop_all_true points elevationWeight hgp (2 * points.length + 2)
      [(0, points.length - 1)]
      (((List.replicate points.length false).set 0 true).set (points.length - 1) true)
      (by
        unfold stackPhi
        rw [List.map_cons, List.map_nil, List.sum_cons, List.sum_nil]
        omega)
      hk0len
      (by
        intro se hse
        rcases List.mem_cons.mp hse with h1 | h1
        · rw [h1]
          exact ⟨by omega, by omega⟩
        · exact absurd h1 (List.not_mem_nil se))
      (by
        intro j hj1 hj2
        exact Or.inr ⟨(0, points.length - 1), List.mem_cons_self _ _, hj1, by omega⟩)
      hk00 hk0l
    refine filterByKeep_length_all points _ ?_ hall
    rw [dpLoop_length]
    exact hk0len

theorem dpLoop_nil (points : List TrackPoint) (tol w : ℝ) :
    ∀ (fuel : Nat) (keep : List Bool), dpLoop points tol w fuel [] keep = keep := by
  intro fuel
  cases fuel <;> intro keep <;> rfl

theorem perpDist_degenerate_origin :
    perpendicularDistance3D elevOnePt originPt originPt 1 = 1 := by
  unfold perpendicularDistance3D originPt elevOnePt
  norm_num

theorem perpDist_origin_self :
    perpendicularDistance3D originPt originPt originPt 1 = 0 := by
  unfold perpendicularDistance3D originPt
  norm_num

theorem simplify3D_tol_zero_counterexample :
    (simplify3D [originPt, originPt, originPt] 0 1).length = 2 ∧
    ([originPt, originPt, originPt] : List TrackPoint).length = 3 := by
  constructor
  · have hfind : findMaxDistance [originPt, originPt, originPt] 1 0 2 = (0, 0) := by
      unfold findMaxDistance
      have hr : List.range' (0 + 1) (2 - 0 - 1) = [1] := rfl
      rw [hr, List.foldl_cons, List.foldl_nil]
      dsimp only
      rw [show ([originPt, originPt, originPt] : List TrackPoint).getD 1 default =
        originPt from rfl,
        show ([originPt, originPt, originPt] : List TrackPoint).getD 0 default =
          originPt from rfl,
        show ([originPt, originPt, originPt] : List TrackPoint).getD 2 default =
          originPt from rfl,
        perpDist_origin_self]
      rw [if_neg (by norm_num : ¬ (0 : ℝ) > 0)]
    have hloop : dpLoop [originPt, originPt, originPt] 0 1 8 [(0, 2)]
        [true, false, true] = [true, false, true] := by
      rw [show (8 : Nat) = 7 + 1 from rfl]
      simp only [dpLoop]
      rw [if_neg (by norm_num : ¬ (2 - 0 ≤ 1))]
      rw [hfind]
      rw [if_neg (by norm_num : ¬ ((0 : ℝ), 0).1 > 0)]
    show (simplify3D [originPt, originPt, originPt] 0 1).length = 2
    unfold simplify3D
    rw [if_neg (by simp : ¬ ([originPt, originPt, originPt] : List TrackPoint).length ≤ 2)]
    unfold douglasPeuckerIterative
    dsimp only
    rw [if_neg (by simp : ¬ ([originPt, originPt, originPt] : List TrackPoint).length ≤ 2)]
    rw [show ([originPt, originPt, originPt] : List TrackPoint).length = 3 from rfl]
    rw [show ((List.replicate 3 false).set 0 true).set (3 - 1) true =
      [true, false, true] from rfl]
    rw [show (2 * 3 + 2 : Nat) = 8 from rfl]
    rw [zero_mul]
    rw [hloop]
    rfl
  · rfl

theorem simplify3D_tol_zero_witness :
    (∀ s m e : Nat, s < m → m < e →
      e < ([originPt, elevOnePt, originPt] : List TrackPoint).length →
      0 < perpendicularDistance3D
        (([originPt, elevOnePt, originPt] : List TrackPoint).getD m default)
        (([originPt, elevOnePt, originPt] : List TrackPoint).getD s default)
        (([originPt, elevOnePt, originPt] : List TrackPoint).getD e default) 1) ∧
    (simplify3D [originPt, elevOnePt, originPt] 0 1).length = 3 := by
  have hgp : ∀ s m e : Nat, s < m → m < e →
      e < ([originPt, elevOnePt, originPt] : List TrackPoint).length →
      0 < perpendicularDistance3D
        (([originPt, elevOnePt, originPt] : List TrackPoint).getD m default)
        (([originPt, elevOnePt, originPt] : List TrackPoint).getD s default)
        (([originPt, elevOnePt, originPt] : List TrackPoint).getD e default) 1 := by
    intro s m e hs hm he
    have hlen : ([originPt, elevOnePt, originPt] : List TrackPoint).length = 3 := rfl
    rw [hlen] at he
    have hs0 : s = 0 := by omega
    have hm1 : m = 1 := by omega
    have he2 : e = 2 := by omega
    subst hs0
    subst hm1
    subst he2
    rw [show ([originPt, elevOnePt, originPt] : List TrackPoint).getD 1 default =
      elevOnePt from rfl,
      show ([originPt, elevOnePt, originPt] : List TrackPoint).getD 0 default =
        originPt from rfl,
      show ([originPt, elevOnePt, originPt] : List TrackPoint).getD 2 default =
        originPt from rfl,
      perpDist_degenerate_origin]
    norm_num
  exact ⟨hgp, simplify3D_tol_zero [originPt, elevOnePt, originPt] 1 hgp⟩

theorem processLineString_length (coordinates : List (List ℝ))
    (times : Option (List String)) (extMap : List (Nat × TrackPointExtensions))
    (startIndex : Nat) (parseDate : String → Int) :
    (processLineString coordinates times extMap startIndex parseDate).points.length =
      coordinates.length := by
  unfold processLineString
  rw [List.length_map, List.enum_length]

theorem parseMLSStep_fold_total (extMap : List (Nat × TrackPointExtensions))
    (parseDate : String → Int) (times : Option (List (List String))) :
    ∀ (cs : List (List (List ℝ))) (st2 : FeatureState),
      (cs.foldl (parseMLSStep extMap parseDate times) st2).total =
        st2.total + (cs.map List.length).sum := by
  intro cs
  induction cs with
  | nil => intro st2; simp
  | cons c cs' ih =>
    intro st2
    rw [List.foldl_cons, List.map_cons, List.sum_cons]
    rw [ih]
    have hstep : (parseMLSStep extMap parseDate times st2 c).total =
        st2.total + c.length := by
      unfold parseMLSStep
      dsimp only
      by_cases hp : 0 < (processLineString c
          (times.bind (fun ts => ts.get? st2.segments.length)) extMap st2.total
          parseDate).points.length
      · rw [if_pos hp]
        dsimp only
        rw [processLineString_length]
      · rw [if_neg hp]
        rw [processLineString_length] at hp
        omega
    rw [hstep]
    omega

theorem parseFeatureStep_total (extMap : List (Nat × TrackPointExtensions))
    (parseDate : String → Int) (st : FeatureState) (f : GeoFeature) :
    (parseFeatureStep extMap parseDate st f).total =
      st.total + (match f.geometry with
        | some (.lineString coords) => coords.length
        | some (.multiLineString cs) => (cs.map List.length).sum
        | _ => 0) := by
  unfold parseFeatureStep
  cases hg : f.geometry with
  | none => simp
  | some g =>
    cases g with
    | lineString coords =>
      dsimp only
      by_cases hp : 0 < (processLineString coords
          (match f.times with | .flat l => some l | _ => none) extMap st.total
          parseDate).points.length
      · rw [if_pos hp]
        dsimp only
        rw [processLineString_length]
      · rw [if_neg hp]
        rw [processLineString_length] at hp
        omega
    | multiLineString cs =>
      dsimp only
      rw [parseMLSStep_fold_total]
    | otherGeom => simp

theorem foldl_features_total (extMap : List (Nat × TrackPointExtensions))
    (parseDate : String → Int) :
    ∀ (features : List GeoFeature) (st : FeatureState),
      (features.foldl (parseFeatureStep extMap parseDate) st).total =
        st.total + specTotalPoints features := by
  intro features
  induction features with
  | nil => intro st; simp [specTotalPoints]
  | cons f fs ih =>
    intro st
    rw [List.foldl_cons, ih, parseFeatureStep_total]
    unfold specTotalPoints
    rw [List.map_cons, List.sum_cons]
    show st.total + _ + (fs.map _).sum = st.total + (_ + (fs.map _).sum)
    omega

/-- C9: `parseGPX` fails with a parse error when the XML is malformed (the XML
parser throws or the DOM parse reports an error) or the document contains no
track (no `trk` element, no feature with geometry, or an empty track array);
fails with the empty-track error when the document parses but zero points
exist across all segments; and otherwise returns a `ParsedTrack`. The external
XML/GeoJSON decoders are modelled as inputs. -/
theorem parseGPX_spec (xmlResult : Option GPXDocument) (domParseError : Bool)
    (features : List GeoFeature) (parseDate : String → Int) :
    (xmlResult = none →
      parseGPX xmlResult domParseError features parseDate =
        .error "Failed to parse GPX: Invalid XML") ∧
    (∀ doc, xmlResult = some doc → doc.gpx.bind (fun r => r.trk) = none →
      parseGPX xmlResult domParseError features parseDate =
        .error "Failed to parse GPX: No track found") ∧
    (∀ doc trk, xmlResult = some doc → doc.gpx.bind (fun r => r.trk) = some trk →
      domParseError = true →
      parseGPX xmlResult domParseError features parseDate =
        .error "Failed to parse GPX: Invalid XML") ∧
    (∀ doc trk, xmlResult = some doc → doc.gpx.bind (fun r => r.trk) = some trk →
      domParseError = false →
      (features.length = 0 ∨ (features.head?.bind (fun f => f.geometry)).isNone) →
      parseGPX xmlResult domParseError features parseDate =
        .error "Failed to parse GPX: No track data found") ∧
    (∀ doc trk, xmlResult = some doc → doc.gpx.bind (fun r => r.trk) = some trk →
      domParseError = false →
      ¬ (features.length = 0 ∨ (features.head?.bind (fun f => f.geometry)).isNone) →
      (gpxTracks trk).head? = none →
      parseGPX xmlResult domParseError features parseDate =
        .error "Failed to parse GPX: No track found") ∧
    (∀ doc trk firstTrack, xmlResult = some doc →
      doc.gpx.bind (fun r => r.trk) = some trk → domParseError = false →
      ¬ (features.length = 0 ∨ (features.head?.bind (fun f => f.geometry)).isNone) →
      (gpxTracks trk).head? = some firstTrack →
      specTotalPoints features = 0 →
      parseGPX xmlResult domParseError features parseDate =
        .error "Failed to parse GPX: no track points found") ∧
    (∀ doc trk firstTrack, xmlResult = some doc →
      doc.gpx.bind (fun r => r.trk) = some trk → domParseError = false →
      ¬ (features.length = 0 ∨ (features.head?.bind (fun f => f.geometry)).isNone) →
      (gpxTracks trk).head? = some firstTrack →
      specTotalPoints features ≠ 0 →
      ∃ pr, parseGPX xmlResult domParseError features parseDate = .ok pr) := by
  refine ⟨?_, ?_, ?_, ?_, ?_, ?_, ?_⟩
  · intro h
    subst h
    rfl
  · intro doc h1 h2
    subst h1
    unfold parseGPX
    dsimp only
    rw [h2]
  · intro doc trk h1 h2 h3
    subst h1
    subst h3
    unfold parseGPX
    dsimp only
    rw [h2]
    rfl
  · intro doc trk h1 h2 h3 h4
    subst h1
    subst h3
    unfold parseGPX
    dsimp only
    rw [h2]
    dsimp only
    rw [if_neg (show ¬ (false = true) by simp), if_pos h4]
  · intro doc trk h1 h2 h3 h4 h5
    subst h1
    subst h3
    unfold parseGPX
    dsimp only
    rw [h2]
    dsimp only
    rw [if_neg (show ¬ (false = true) by simp), if_neg h4, h5]
  · intro doc trk firstTrack h1 h2 h3 h4 h5 h6
    subst h1
    subst h3
    unfold parseGPX
    dsimp only
    rw [h2]
    dsimp only
    rw [if_neg (show ¬ (false = true) by simp), if_neg h4, h5]
    dsimp only
    rw [if_pos (show (List.foldl (parseFeatureStep (buildExtensionMap firstTrack) parseDate)
      { segments := [], hasEle := False, hasTime := False, total := 0 } features).total = 0 by
        rw [foldl_features_total, h6])]
  · intro doc trk firstTrack h1 h2 h3 h4 h5 h6
    subst h1
    subst h3
    unfold parseGPX
    dsimp only
    rw [h2]
    dsimp only
    rw [if_neg (show ¬ (false = true) by simp), if_neg h4, h5]
    dsimp only
    rw [if_neg (show ¬ (List.foldl (parseFeatureStep (buildExtensionMap firstTrack) parseDate)
      { segments := [], hasEle := False, hasTime := False, total := 0 } features).total = 0 by
        rw [foldl_features_total]
        simpa using h6)]
    exact ⟨_, rfl⟩

theorem parseGPX_spec_witness :
    (parseGPX (some docC9) false featuresC9 (fun _ => 0)).isOk = true ∧
    parseGPX none false featuresC9 (fun _ => 0) =
      .error "Failed to parse GPX: Invalid XML" := by
  constructor
  · obtain ⟨pr, hpr⟩ :=
      (parseGPX_spec (some docC9) false featuresC9 (fun _ => 0)).2.2.2.2.2.2
        docC9 (.one trackC9) trackC9 rfl rfl rfl
        (by
          intro hc
          rcases hc with hc | hc
          · exact absurd hc (by simp [featuresC9])
          · exact absurd hc (by simp [featuresC9]))
        rfl
        (by simp [specTotalPoints, featuresC9])
    rw [hpr]
    rfl
  · exact (parseGPX_spec none false featuresC9 (fun _ => 0)).1 rfl

/-- C10: concatenating the points of the segments returned by `processSegments`,
in order, yields exactly the concatenation of the points of the input segments:
merging never drops, duplicates, reorders, or mutates any point. -/
theorem processSegments_points (segments : List TrackSegment)
    (options : Option SegmentProcessingOptions) :
    ((processSegments segments options).segments.map TrackSegment.points).join =
      (segments.map TrackSegment.points).join := by
  match segments with
  | [] => rfl
  | [s] => rfl
  | s0 :: s1 :: rest =>
    unfold processSegments
    dsimp only
    rw [processSegmentsStep_join options (s1 :: rest) [] [] { points := s0.points }]
    simp

end Drift
